import Mathlib

/-!
Verification of the rule-schema validators of the d4lf loot-filter
(src/config/models.py), shallowly embedded in Lean 4.

The pydantic models are embedded as Lean structures that carry, next to each
optional field's value, a Boolean recording whether the field was explicitly
supplied (pydantic's `model_fields_set`).  Parsing a structured document
(`Doc`, a YAML/JSON-like value) into a model is an `Except String` function
that mirrors, validator by validator, the Python code: `mode="before"` model
validators normalise the raw document, field validation checks types and runs
the declared field validators on explicitly supplied values only (pydantic
does not validate defaults unless `validate_default` is set, which the source
never sets), and `mode="after"` model validators run on the constructed model.
Numeric scalars are embedded as `Int` (the validators never do arithmetic on
them beyond comparisons, so the int/float distinction is irrelevant to every
claim).  The external catalog (`src.dataloader.Dataloader`, not part of the
sampled sources) is a parameter holding its three name dictionaries, and the
`ItemType` enum (also external) is a parameter holding its value set.
-/

set_option maxHeartbeats 1000000

namespace D4LF

/-- A structured document value: the YAML/JSON-like input handed to pydantic. -/
inductive Doc : Type where
  | null : Doc
  | bool : Bool → Doc
  | num : Int → Doc
  | str : String → Doc
  | list : List Doc → Doc
  | dict : List (String × Doc) → Doc

/-- Key lookup in a document mapping (Python dicts have unique keys). -/
def dlookup : List (String × Doc) → String → Option Doc
  | [], _ => none
  | (k, v) :: rest, key => if k = key then some v else dlookup rest key

/-- Strictness check for pydantic extra-forbid configuration: every key of the
input mapping must be a declared field name. -/
def keysAllowed (kvs : List (String × Doc)) (allowed : List String) : Bool :=
  kvs.all fun kv => allowed.contains kv.1

/-- One field of a dump with pydantic exclude-unset semantics: the key appears
exactly when the field was explicitly supplied. -/
def optField (k : String) (isSet : Bool) (v : Doc) : List (String × Doc) :=
  if isSet then [(k, v)] else []

/-- The value of Python's sys.maxsize on the 64-bit platforms the tool runs on. -/
def sys_maxsize : Int := 9223372036854775807

/-- Sequencing of fallible validation steps (the propagation of a raised
ValidationError past the remaining validators). -/
def ebind (x : Except String α) (f : α → Except String β) : Except String β :=
  match x with
  | .error e => .error e
  | .ok a => f a

/-- Validate every element of a list, stopping at the first error (a pydantic
list field validates each element). -/
def mapE (f : α → Except String β) : List α → Except String (List β)
  | [] => .ok []
  | x :: xs => ebind (f x) fun y => ebind (mapE f xs) fun ys => .ok (y :: ys)

/-- Modelled from the spec: src/config/helper.py is not among the sampled
sources.  Its check_greater_than_zero is the validator behind the spec's
nonnegativity rules (power greater or equal 0, counts greater or equal 0): it
rejects negative values and returns nonnegative ones unchanged. -/
def check_greater_than_zero (v : Int) : Except String Int :=
  if v < 0 then .error "must be greater than zero" else .ok v

/-- ComparisonType: how an affix value threshold is interpreted
(observed at least / at most the threshold). -/
inductive ComparisonType : Type where
  | larger
  | smaller
  deriving DecidableEq, Repr

/-- A StrEnum member serialises to its value string. -/
def ComparisonType.toStr : ComparisonType → String
  | .larger => "larger"
  | .smaller => "smaller"

/-- A StrEnum field accepts exactly its value strings. -/
def ComparisonType.ofStr : String → Option ComparisonType
  | "larger" => some ComparisonType.larger
  | "smaller" => some ComparisonType.smaller
  | _ => none

/-- The catalog surface of the external src.dataloader.Dataloader: its three
name dictionaries, each embedded as the list of known names. -/
structure Dataloader where
  affix_dict : List String
  aspect_unique_dict : List String
  affix_sigil_dict : List String

/-- AffixAspectFilterModel: one named affix or aspect requirement.  Fields
are name (required), value (float or None, default None) and comparison
(default larger); value_set / comparison_set mirror model_fields_set. -/
structure AffixAspectFilterModel where
  name : String
  value : Option Int
  comparison : ComparisonType
  value_set : Bool
  comparison_set : Bool
  deriving DecidableEq, Repr

/-- AffixAspectFilterModel.parse_data, the mode-before model validator: a dict
passes through, a bare string becomes its name, a list of 1 to 3 entries maps
positionally to name, value, comparison, and anything else is rejected. -/
def AffixAspectFilterModel.parse_data (data : Doc) : Except String (List (String × Doc)) :=
  match data with
  | .dict kvs => .ok kvs
  | .str s => .ok [("name", .str s)]
  | .list xs =>
    if xs.length = 0 ∨ xs.length > 3 then
      .error "list, cannot be empty or larger than 3 items"
    else
      match xs with
      | [a] => .ok [("name", a)]
      | [a, b] => .ok [("name", a), ("value", b)]
      | [a, b, c] => .ok [("name", a), ("value", b), ("comparison", c)]
      | _ => .error "list, cannot be empty or larger than 3 items"
  | _ => .error "must be str or list"

/-- The message of the name existence validators of AffixFilterModel and
AspectUniqueFilterModel (both interpolate the offending name). -/
def affix_not_exist_msg (name : String) : String :=
  "affix " ++ name ++ " does not exist"

/-- AffixFilterModel.name_must_exist: the name must be a key of the catalog's
affix_dict and is returned unchanged. -/
def AffixFilterModel.name_must_exist (loader : Dataloader) (name : String) : Except String String :=
  if name ∈ loader.affix_dict then .ok name else .error (affix_not_exist_msg name)

/-- AspectUniqueFilterModel.name_must_exist: the name must be a key of the
catalog's aspect_unique_dict and is returned unchanged. -/
def AspectUniqueFilterModel.name_must_exist (loader : Dataloader) (name : String) : Except String String :=
  if name ∈ loader.aspect_unique_dict then .ok name else .error (affix_not_exist_msg name)

/-- Field validation of a required string field (the name fields), running the
declared per-field validator on the string. -/
def parseNameField (nameCheck : String → Except String String) : Option Doc → Except String String
  | none => .error "name: field required"
  | some (.str s) => nameCheck s
  | some _ => .error "name: input should be a valid string"

/-- Field validation of the value field: absent keeps default None unset,
an explicit null or number is recorded as set, anything else is rejected. -/
def parseValueField : Option Doc → Except String (Option Int × Bool)
  | none => .ok (none, false)
  | some .null => .ok (none, true)
  | some (.num n) => .ok (some n, true)
  | some _ => .error "value: input should be a valid number"

/-- Field validation of the comparison field: absent keeps the default larger
unset, a valid enum string is recorded as set, anything else is rejected. -/
def parseComparisonField : Option Doc → Except String (ComparisonType × Bool)
  | none => .ok (ComparisonType.larger, false)
  | some (.str s) =>
    match ComparisonType.ofStr s with
    | some c => .ok (c, true)
    | none => .error "comparison: input should be larger or smaller"
  | some _ => .error "comparison: input should be a valid string"

/-- Field validation shared by AffixFilterModel and AspectUniqueFilterModel on
the normalised mapping: extra keys are forbidden, name is a required string
run through the subclass's existence check, value and comparison are optional. -/
def parseAffixAspectFields (nameCheck : String → Except String String)
    (kvs : List (String × Doc)) : Except String AffixAspectFilterModel :=
  if keysAllowed kvs ["name", "value", "comparison"] = false then
    .error "extra inputs are not permitted"
  else
    ebind (parseNameField nameCheck (dlookup kvs "name")) fun nm =>
    ebind (parseValueField (dlookup kvs "value")) fun v =>
    ebind (parseComparisonField (dlookup kvs "comparison")) fun c =>
    .ok { name := nm, value := v.1, comparison := c.1, value_set := v.2, comparison_set := c.2 }

/-- Full validation of an AffixFilterModel from a raw document: the
parse_data normalisation followed by field validation with the affix
existence check. -/
def parseAffixFilterModel (loader : Dataloader) (d : Doc) : Except String AffixAspectFilterModel :=
  ebind (AffixAspectFilterModel.parse_data d) fun kvs =>
  parseAffixAspectFields (AffixFilterModel.name_must_exist loader) kvs

/-- Full validation of an AspectUniqueFilterModel from a raw document. -/
def parseAspectUniqueFilterModel (loader : Dataloader) (d : Doc) : Except String AffixAspectFilterModel :=
  ebind (AffixAspectFilterModel.parse_data d) fun kvs =>
  parseAffixAspectFields (AspectUniqueFilterModel.name_must_exist loader) kvs

/-- Serialise an Option Int value field. -/
def dumpOptInt : Option Int → Doc
  | none => .null
  | some n => .num n

/-- model_dump with exclude_unset of an AffixAspectFilterModel: the required
name always appears, value and comparison only when explicitly set. -/
def AffixAspectFilterModel.dump (m : AffixAspectFilterModel) : List (String × Doc) :=
  ("name", .str m.name) ::
    (optField "value" m.value_set (dumpOptInt m.value) ++
      optField "comparison" m.comparison_set (.str m.comparison.toStr))

/-- AffixFilterCountModel: a counted pool of affix requirements.  Defaults:
count = [], maxCount = sys.maxsize, minCount = 0, minGreaterAffixCount = 0. -/
structure AffixFilterCountModel where
  count : List AffixAspectFilterModel
  maxCount : Int
  minCount : Int
  minGreaterAffixCount : Int
  count_set : Bool
  maxCount_set : Bool
  minCount_set : Bool
  minGreaterAffixCount_set : Bool
  deriving DecidableEq, Repr

/-- AffixFilterCountModel.model_validator, the mode-after validator: when
neither minCount nor maxCount was explicitly supplied both are overwritten
with the length of the count list while staying out of model_fields_set;
then minCount greater than maxCount and an empty count list are rejected. -/
def AffixFilterCountModel.model_validator (m : AffixFilterCountModel) : Except String AffixFilterCountModel :=
  let m2 :=
    if m.minCount_set = false ∧ m.maxCount_set = false then
      { m with minCount := m.count.length, maxCount := m.count.length }
    else m
  if m2.minCount > m2.maxCount then .error "minCount must be smaller than maxCount"
  else if m2.count.isEmpty then .error "count must not be empty"
  else .ok m2

/-- Field validation of an optional integer field: an absent key keeps the
default and stays unset (pydantic does not run field validators on defaults),
a supplied integer runs the declared field validator, and non-integers fail. -/
def parseIntWith (check : Int → Except String Int) (dflt : Int) :
    Option Doc → Except String (Int × Bool)
  | none => .ok (dflt, false)
  | some (.num n) => ebind (check n) fun n2 => .ok (n2, true)
  | some _ => .error "input should be a valid integer"

/-- Field validation of a list-of-AffixFilterModel field (the count field of a
pool, or the affix field of a unique rule): default [] unset. -/
def parseAffixList (loader : Dataloader) : Option Doc → Except String (List AffixAspectFilterModel × Bool)
  | none => .ok ([], false)
  | some (.list xs) => ebind (mapE (parseAffixFilterModel loader) xs) fun l => .ok (l, true)
  | some _ => .error "input should be a valid list"

/-- Full validation of an AffixFilterCountModel from a raw document: the
input must be a mapping with no extra keys, each field is validated (counts
through check_greater_than_zero), then the mode-after model validator runs. -/
def parseAffixFilterCountModel (loader : Dataloader) (d : Doc) : Except String AffixFilterCountModel :=
  match d with
  | .dict kvs =>
    if keysAllowed kvs ["count", "maxCount", "minCount", "minGreaterAffixCount"] = false then
      .error "extra inputs are not permitted"
    else
      ebind (parseAffixList loader (dlookup kvs "count")) fun cnt =>
      ebind (parseIntWith check_greater_than_zero sys_maxsize (dlookup kvs "maxCount")) fun mx =>
      ebind (parseIntWith check_greater_than_zero 0 (dlookup kvs "minCount")) fun mn =>
      ebind (parseIntWith check_greater_than_zero 0 (dlookup kvs "minGreaterAffixCount")) fun mg =>
      AffixFilterCountModel.model_validator
        { count := cnt.1, maxCount := mx.1, minCount := mn.1, minGreaterAffixCount := mg.1,
          count_set := cnt.2, maxCount_set := mx.2, minCount_set := mn.2,
          minGreaterAffixCount_set := mg.2 }
  | _ => .error "input should be a valid dictionary"

/-- model_dump with exclude_unset of an AffixFilterCountModel, fields in
declaration order (count, maxCount, minCount, minGreaterAffixCount). -/
def AffixFilterCountModel.dump (m : AffixFilterCountModel) : List (String × Doc) :=
  optField "count" m.count_set (.list (m.count.map fun a => .dict a.dump)) ++
    optField "maxCount" m.maxCount_set (.num m.maxCount) ++
    optField "minCount" m.minCount_set (.num m.minCount) ++
    optField "minGreaterAffixCount" m.minGreaterAffixCount_set (.num m.minGreaterAffixCount)

/-- ItemFilterModel.min_greater_affix_in_range: a supplied greater-affix
quota must lie in [0, 3]. -/
def min_greater_affix_in_range (v : Int) : Except String Int :=
  if 0 ≤ v ∧ v ≤ 3 then .ok v else .error "must be in [0, 3]"

/-- The module-level _parse_item_type helper: a bare string becomes a
one-element list, anything else passes through for list validation. -/
def _parse_item_type (d : Doc) : Doc :=
  match d with
  | .str s => .list [.str s]
  | _ => d

/-- Field validation of the itemType field: the _parse_item_type mode-before
normalisation, then each entry must be a valid ItemType enum value.  The
ItemType enum lives outside the sampled sources, so its value set is the
parameter itemTypes. -/
def parseItemTypeList (itemTypes : List String) : Option Doc → Except String (List String × Bool)
  | none => .ok ([], false)
  | some d =>
    match _parse_item_type d with
    | .list xs =>
      ebind (mapE (fun x =>
        match x with
        | Doc.str s =>
          if s ∈ itemTypes then Except.ok s
          else Except.error "input should be a valid ItemType"
        | _ => Except.error "input should be a valid ItemType") xs) fun l =>
      .ok (l, true)
    | _ => .error "input should be a valid list"

/-- ItemFilterModel: the full requirement for one non-unique item. -/
structure ItemFilterModel where
  affixPool : List AffixFilterCountModel
  inherentPool : List AffixFilterCountModel
  itemType : List String
  minGreaterAffixCount : Int
  minPower : Int
  affixPool_set : Bool
  inherentPool_set : Bool
  itemType_set : Bool
  minGreaterAffixCount_set : Bool
  minPower_set : Bool
  deriving DecidableEq, Repr

/-- Field validation of a list-of-AffixFilterCountModel field. -/
def parseCountList (loader : Dataloader) : Option Doc → Except String (List AffixFilterCountModel × Bool)
  | none => .ok ([], false)
  | some (.list xs) => ebind (mapE (parseAffixFilterCountModel loader) xs) fun l => .ok (l, true)
  | some _ => .error "input should be a valid list"

/-- Full validation of an ItemFilterModel: strict keys, pools, item types,
minGreaterAffixCount through min_greater_affix_in_range and minPower through
check_greater_than_zero (each on supplied values only). -/
def parseItemFilterModel (loader : Dataloader) (itemTypes : List String) (d : Doc) :
    Except String ItemFilterModel :=
  match d with
  | .dict kvs =>
    if keysAllowed kvs ["affixPool", "inherentPool", "itemType", "minGreaterAffixCount", "minPower"] = false then
      .error "extra inputs are not permitted"
    else
      ebind (parseCountList loader (dlookup kvs "affixPool")) fun ap =>
      ebind (parseCountList loader (dlookup kvs "inherentPool")) fun ip =>
      ebind (parseItemTypeList itemTypes (dlookup kvs "itemType")) fun it =>
      ebind (parseIntWith min_greater_affix_in_range 0 (dlookup kvs "minGreaterAffixCount")) fun mg =>
      ebind (parseIntWith check_greater_than_zero 0 (dlookup kvs "minPower")) fun mp =>
      .ok { affixPool := ap.1, inherentPool := ip.1, itemType := it.1,
            minGreaterAffixCount := mg.1, minPower := mp.1,
            affixPool_set := ap.2, inherentPool_set := ip.2, itemType_set := it.2,
            minGreaterAffixCount_set := mg.2, minPower_set := mp.2 }
  | _ => .error "input should be a valid dictionary"

/-- model_dump with exclude_unset of an ItemFilterModel. -/
def ItemFilterModel.dump (m : ItemFilterModel) : List (String × Doc) :=
  optField "affixPool" m.affixPool_set (.list (m.affixPool.map fun p => .dict p.dump)) ++
    optField "inherentPool" m.inherentPool_set (.list (m.inherentPool.map fun p => .dict p.dump)) ++
    optField "itemType" m.itemType_set (.list (m.itemType.map Doc.str)) ++
    optField "minGreaterAffixCount" m.minGreaterAffixCount_set (.num m.minGreaterAffixCount) ++
    optField "minPower" m.minPower_set (.num m.minPower)

/-- SigilPriority: which of blacklist and whitelist is consulted first. -/
inductive SigilPriority : Type where
  | blacklist
  | whitelist
  deriving DecidableEq, Repr

/-- A StrEnum member serialises to its value string. -/
def SigilPriority.toStr : SigilPriority → String
  | .blacklist => "blacklist"
  | .whitelist => "whitelist"

/-- A StrEnum field accepts exactly its value strings. -/
def SigilPriority.ofStr : String → Option SigilPriority
  | "blacklist" => some SigilPriority.blacklist
  | "whitelist" => some SigilPriority.whitelist
  | _ => none

/-- SigilConditionModel: one blacklist/whitelist entry, a name with an
optional list of qualifying conditions. -/
structure SigilConditionModel where
  name : String
  condition : List String
  condition_set : Bool
  deriving DecidableEq, Repr

/-- SigilConditionModel.parse_data, the mode-before model validator: a dict
passes through, a bare string becomes its name, a non-empty list maps its head
to name and its tail (when non-empty) to condition; an empty list and any
other shape are rejected. -/
def SigilConditionModel.parse_data (data : Doc) : Except String (List (String × Doc)) :=
  match data with
  | .dict kvs => .ok kvs
  | .str s => .ok [("name", .str s)]
  | .list [] => .error "list cannot be empty"
  | .list (a :: rest) =>
    .ok (("name", a) :: (if rest.isEmpty then [] else [("condition", .list rest)]))
  | _ => .error "must be str or list"

/-- The message of SigilConditionModel.name_must_exist, interpolating the
list of offending names (Python formats the list between brackets). -/
def sigil_names_not_exist_msg (errors : List String) : String :=
  "The following affixes/dungeons do not exist: [" ++ String.intercalate ", " errors ++ "]"

/-- SigilConditionModel.name_must_exist on a list of names (the name field is
checked as a one-element list, the condition field as itself): every name must
be a key of the catalog's affix_sigil_dict; the offenders are collected and
reported together, and on success the input is returned unchanged. -/
def SigilConditionModel.name_must_exist (loader : Dataloader) (names : List String) :
    Except String (List String) :=
  let errors := names.filter fun n => decide (n ∉ loader.affix_sigil_dict)
  if errors.isEmpty then .ok names else .error (sigil_names_not_exist_msg errors)

/-- Field validation of the condition field: each entry must be a string and
the whole list is run through name_must_exist. -/
def parseSigilCondListField (loader : Dataloader) : Option Doc → Except String (List String × Bool)
  | none => .ok ([], false)
  | some (.list xs) =>
    ebind (mapE (fun x =>
      match x with
      | Doc.str c => Except.ok c
      | _ => Except.error "condition: input should be a valid string") xs) fun l =>
    ebind (SigilConditionModel.name_must_exist loader l) fun l2 =>
    .ok (l2, true)
  | some _ => .error "condition: input should be a valid list"

/-- Full validation of a SigilConditionModel from a raw document: parse_data
normalisation, strict keys, the name (checked through name_must_exist as a
one-element list) and the optional condition list. -/
def parseSigilConditionModel (loader : Dataloader) (d : Doc) : Except String SigilConditionModel :=
  ebind (SigilConditionModel.parse_data d) fun kvs =>
  if keysAllowed kvs ["name", "condition"] = false then
    .error "extra inputs are not permitted"
  else
    ebind (parseNameField
      (fun s => ebind (SigilConditionModel.name_must_exist loader [s]) fun _ => .ok s)
      (dlookup kvs "name")) fun nm =>
    ebind (parseSigilCondListField loader (dlookup kvs "condition")) fun cond =>
    .ok { name := nm, condition := cond.1, condition_set := cond.2 }

/-- The equality pydantic's BaseModel uses for the membership test of the
blacklist/whitelist overlap check: field values are compared,
model_fields_set is not. -/
def SigilConditionModel.pyEq (a b : SigilConditionModel) : Bool :=
  a.name = b.name ∧ a.condition = b.condition

/-- model_dump with exclude_unset of a SigilConditionModel. -/
def SigilConditionModel.dump (m : SigilConditionModel) : List (String × Doc) :=
  ("name", .str m.name) ::
    optField "condition" m.condition_set (.list (m.condition.map Doc.str))

/-- SigilFilterModel: the sigil acceptance policy.  Defaults: empty lists,
maxTier = sys.maxsize, minTier = 0, priority = blacklist. -/
structure SigilFilterModel where
  blacklist : List SigilConditionModel
  maxTier : Int
  minTier : Int
  priority : SigilPriority
  whitelist : List SigilConditionModel
  blacklist_set : Bool
  maxTier_set : Bool
  minTier_set : Bool
  priority_set : Bool
  whitelist_set : Bool
  deriving DecidableEq, Repr

/-- SigilFilterModel.min_max_tier_in_range: a supplied tier bound must lie
in [0, 100]. -/
def min_max_tier_in_range (v : Int) : Except String Int :=
  if 0 ≤ v ∧ v ≤ 100 then .ok v else .error "must be in [0, 100]"

/-- SigilFilterModel.data_integrity, the mode-after validator: a blacklist
entry that equals (as a pydantic model) some whitelist entry is an overlap
error, and minTier greater than maxTier is rejected. -/
def SigilFilterModel.data_integrity (m : SigilFilterModel) : Except String SigilFilterModel :=
  let errors := m.blacklist.filter fun item => m.whitelist.any fun w => item.pyEq w
  if errors.isEmpty = false then .error "blacklist and whitelist must not overlap"
  else if m.minTier > m.maxTier then .error "minTier must be smaller than maxTier"
  else .ok m

/-- Field validation of a list-of-SigilConditionModel field. -/
def parseSigilList (loader : Dataloader) : Option Doc → Except String (List SigilConditionModel × Bool)
  | none => .ok ([], false)
  | some (.list xs) => ebind (mapE (parseSigilConditionModel loader) xs) fun l => .ok (l, true)
  | some _ => .error "input should be a valid list"

/-- Field validation of the priority enum field. -/
def parsePriorityField : Option Doc → Except String (SigilPriority × Bool)
  | none => .ok (SigilPriority.blacklist, false)
  | some (.str s) =>
    match SigilPriority.ofStr s with
    | some p => .ok (p, true)
    | none => .error "priority: input should be blacklist or whitelist"
  | some _ => .error "priority: input should be a valid string"

/-- Full validation of a SigilFilterModel: strict keys, both condition lists,
tier bounds through min_max_tier_in_range (on supplied values only), the
priority enum, then the mode-after data_integrity validator. -/
def parseSigilFilterModel (loader : Dataloader) (d : Doc) : Except String SigilFilterModel :=
  match d with
  | .dict kvs =>
    if keysAllowed kvs ["blacklist", "maxTier", "minTier", "priority", "whitelist"] = false then
      .error "extra inputs are not permitted"
    else
      ebind (parseSigilList loader (dlookup kvs "blacklist")) fun bl =>
      ebind (parseIntWith min_max_tier_in_range sys_maxsize (dlookup kvs "maxTier")) fun mx =>
      ebind (parseIntWith min_max_tier_in_range 0 (dlookup kvs "minTier")) fun mn =>
      ebind (parsePriorityField (dlookup kvs "priority")) fun pr =>
      ebind (parseSigilList loader (dlookup kvs "whitelist")) fun wl =>
      SigilFilterModel.data_integrity
        { blacklist := bl.1, maxTier := mx.1, minTier := mn.1, priority := pr.1, whitelist := wl.1,
          blacklist_set := bl.2, maxTier_set := mx.2, minTier_set := mn.2,
          priority_set := pr.2, whitelist_set := wl.2 }
  | _ => .error "input should be a valid dictionary"

/-- model_dump with exclude_unset of a SigilFilterModel. -/
def SigilFilterModel.dump (m : SigilFilterModel) : List (String × Doc) :=
  optField "blacklist" m.blacklist_set (.list (m.blacklist.map fun c => .dict c.dump)) ++
    optField "maxTier" m.maxTier_set (.num m.maxTier) ++
    optField "minTier" m.minTier_set (.num m.minTier) ++
    optField "priority" m.priority_set (.str m.priority.toStr) ++
    optField "whitelist" m.whitelist_set (.list (m.whitelist.map fun c => .dict c.dump))

/-- UniqueModel: the requirement for one unique item.  The aspect field's
annotation is not optional but its default is None, so it is only populated
by an explicit (non-null) aspect document. -/
structure UniqueModel where
  affix : List AffixAspectFilterModel
  aspect : Option AffixAspectFilterModel
  itemType : List String
  minGreaterAffixCount : Int
  minPower : Int
  affix_set : Bool
  aspect_set : Bool
  itemType_set : Bool
  minGreaterAffixCount_set : Bool
  minPower_set : Bool
  deriving DecidableEq, Repr

/-- Field validation of the aspect field of a UniqueModel: absent keeps the
None default unset; a supplied document (including an explicit null, which
parse_data rejects) is validated as an AspectUniqueFilterModel. -/
def parseAspectField (loader : Dataloader) : Option Doc → Except String (Option AffixAspectFilterModel × Bool)
  | none => .ok (none, false)
  | some d => ebind (parseAspectUniqueFilterModel loader d) fun a => .ok (some a, true)

/-- Full validation of a UniqueModel: strict keys, affix list, optional
aspect, item types, minGreaterAffixCount through UniqueModel.count_validator
(which is check_greater_than_zero) and minPower through
check_greater_than_zero. -/
def parseUniqueModel (loader : Dataloader) (itemTypes : List String) (d : Doc) :
    Except String UniqueModel :=
  match d with
  | .dict kvs =>
    if keysAllowed kvs ["affix", "aspect", "itemType", "minGreaterAffixCount", "minPower"] = false then
      .error "extra inputs are not permitted"
    else
      ebind (parseAffixList loader (dlookup kvs "affix")) fun af =>
      ebind (parseAspectField loader (dlookup kvs "aspect")) fun asp =>
      ebind (parseItemTypeList itemTypes (dlookup kvs "itemType")) fun it =>
      ebind (parseIntWith check_greater_than_zero 0 (dlookup kvs "minGreaterAffixCount")) fun mg =>
      ebind (parseIntWith check_greater_than_zero 0 (dlookup kvs "minPower")) fun mp =>
      .ok { affix := af.1, aspect := asp.1, itemType := it.1,
            minGreaterAffixCount := mg.1, minPower := mp.1,
            affix_set := af.2, aspect_set := asp.2, itemType_set := it.2,
            minGreaterAffixCount_set := mg.2, minPower_set := mp.2 }
  | _ => .error "input should be a valid dictionary"

/-- Serialisation of the optional aspect sub-model (None dumps as null). -/
def dumpOptAspect : Option AffixAspectFilterModel → Doc
  | none => Doc.null
  | some a => Doc.dict a.dump

/-- model_dump with exclude_unset of a UniqueModel. -/
def UniqueModel.dump (m : UniqueModel) : List (String × Doc) :=
  optField "affix" m.affix_set (.list (m.affix.map fun a => .dict a.dump)) ++
    optField "aspect" m.aspect_set (dumpOptAspect m.aspect) ++
    optField "itemType" m.itemType_set (.list (m.itemType.map Doc.str)) ++
    optField "minGreaterAffixCount" m.minGreaterAffixCount_set (.num m.minGreaterAffixCount) ++
    optField "minPower" m.minPower_set (.num m.minPower)

/-- ProfileModel: a user profile; Affixes is a list of DynamicItemFilterModel,
each a mapping of rule name to ItemFilterModel. -/
structure ProfileModel where
  name : String
  Affixes : List (List (String × ItemFilterModel))
  Sigils : Option SigilFilterModel
  Uniques : List UniqueModel
  Affixes_set : Bool
  Sigils_set : Bool
  Uniques_set : Bool
  deriving DecidableEq, Repr

/-- Validation of one DynamicItemFilterModel, the RootModel wrapping a
mapping of rule name to ItemFilterModel (insertion order preserved). -/
def parseDynamicItemFilterModel (loader : Dataloader) (itemTypes : List String) (d : Doc) :
    Except String (List (String × ItemFilterModel)) :=
  match d with
  | .dict kvs =>
    mapE (fun kv =>
      ebind (parseItemFilterModel loader itemTypes kv.2) fun m => .ok (kv.1, m)) kvs
  | _ => .error "input should be a valid dictionary"

/-- Field validation of the Affixes field (a list of dynamic filter models). -/
def parseAffixesField (loader : Dataloader) (itemTypes : List String) :
    Option Doc → Except String (List (List (String × ItemFilterModel)) × Bool)
  | none => .ok ([], false)
  | some (.list xs) =>
    ebind (mapE (parseDynamicItemFilterModel loader itemTypes) xs) fun l => .ok (l, true)
  | some _ => .error "input should be a valid list"

/-- Field validation of the optional Sigils field: an explicit null is a set
None, a mapping is validated as a SigilFilterModel. -/
def parseSigilsField (loader : Dataloader) :
    Option Doc → Except String (Option SigilFilterModel × Bool)
  | none => .ok (none, false)
  | some .null => .ok (none, true)
  | some d => ebind (parseSigilFilterModel loader d) fun s => .ok (some s, true)

/-- Field validation of the Uniques field. -/
def parseUniquesField (loader : Dataloader) (itemTypes : List String) :
    Option Doc → Except String (List UniqueModel × Bool)
  | none => .ok ([], false)
  | some (.list xs) =>
    ebind (mapE (parseUniqueModel loader itemTypes) xs) fun l => .ok (l, true)
  | some _ => .error "input should be a valid list"

/-- Full validation of a ProfileModel: strict keys, a required string name,
Affixes, Sigils and Uniques. -/
def parseProfileModel (loader : Dataloader) (itemTypes : List String) (d : Doc) :
    Except String ProfileModel :=
  match d with
  | .dict kvs =>
    if keysAllowed kvs ["name", "Affixes", "Sigils", "Uniques"] = false then
      .error "extra inputs are not permitted"
    else
      ebind (parseNameField Except.ok (dlookup kvs "name")) fun nm =>
      ebind (parseAffixesField loader itemTypes (dlookup kvs "Affixes")) fun af =>
      ebind (parseSigilsField loader (dlookup kvs "Sigils")) fun sg =>
      ebind (parseUniquesField loader itemTypes (dlookup kvs "Uniques")) fun un =>
      .ok { name := nm, Affixes := af.1, Sigils := sg.1, Uniques := un.1,
            Affixes_set := af.2, Sigils_set := sg.2, Uniques_set := un.2 }
  | _ => .error "input should be a valid dictionary"

/-- Serialisation of the optional Sigils field (an explicit None dumps as
null). -/
def dumpOptSigils : Option SigilFilterModel → Doc
  | none => Doc.null
  | some s => Doc.dict s.dump

/-- model_dump with exclude_unset of a ProfileModel (the required name is
always set and always appears). -/
def ProfileModel.dump (p : ProfileModel) : Doc :=
  .dict (("name", .str p.name) ::
    (optField "Affixes" p.Affixes_set
        (.list (p.Affixes.map fun d => .dict (d.map fun kv => (kv.1, .dict kv.2.dump)))) ++
      optField "Sigils" p.Sigils_set (dumpOptSigils p.Sigils) ++
      optField "Uniques" p.Uniques_set (.list (p.Uniques.map fun u => .dict u.dump))))

/-! ## Generic inversion and evaluation lemmas -/

@[simp]
theorem ebind_ok_left {x : α} {f : α → Except String β} : ebind (.ok x) f = f x := rfl

@[simp]
theorem ebind_error_left {e : String} {f : α → Except String β} :
    ebind (.error e) f = .error e := rfl

theorem ebind_ok {x : Except String α} {f : α → Except String β} {b : β}
    (h : ebind x f = .ok b) : ∃ a, x = .ok a ∧ f a = .ok b := by
  cases x with
  | error e => exact Except.noConfusion h
  | ok a => exact ⟨a, rfl, h⟩

theorem mapE_ok_mem {f : α → Except String β} {xs : List α} {ys : List β}
    (h : mapE f xs = .ok ys) : ∀ y ∈ ys, ∃ x ∈ xs, f x = .ok y := by
  induction xs generalizing ys with
  | nil =>
    cases h
    intro y hy
    cases hy
  | cons x xs ih =>
    obtain ⟨y0, hy0, h2⟩ := ebind_ok h
    obtain ⟨ys0, hys0, h3⟩ := ebind_ok h2
    cases h3
    intro y hy
    rcases List.mem_cons.mp hy with hy | hy
    · exact ⟨x, List.mem_cons_self .., hy ▸ hy0⟩
    · obtain ⟨x0, hx0, hfx0⟩ := ih hys0 y hy
      exact ⟨x0, List.mem_cons_of_mem _ hx0, hfx0⟩

theorem mapE_of_forall {f : α → Except String β} {g : β → α} {ys : List β}
    (h : ∀ y ∈ ys, f (g y) = .ok y) : mapE f (ys.map g) = .ok ys := by
  induction ys with
  | nil => rfl
  | cons y ys ih =>
    have hy := h y (List.mem_cons_self ..)
    have hrest := ih fun z hz => h z (List.mem_cons_of_mem _ hz)
    simp [mapE, hy, hrest]

/-! ## Inversion lemmas for the individual validators -/

theorem check_gtz_ok {v n : Int} (h : check_greater_than_zero v = .ok n) :
    n = v ∧ 0 ≤ v := by
  unfold check_greater_than_zero at h
  by_cases hv : v < 0
  · rw [if_pos hv] at h
    exact Except.noConfusion h
  · rw [if_neg hv] at h
    cases h
    exact ⟨rfl, not_lt.mp hv⟩

theorem min_greater_affix_in_range_ok {v n : Int}
    (h : min_greater_affix_in_range v = .ok n) : n = v ∧ 0 ≤ v ∧ v ≤ 3 := by
  unfold min_greater_affix_in_range at h
  by_cases hv : 0 ≤ v ∧ v ≤ 3
  · rw [if_pos hv] at h
    cases h
    exact ⟨rfl, hv⟩
  · rw [if_neg hv] at h
    exact Except.noConfusion h

theorem min_max_tier_in_range_ok {v n : Int}
    (h : min_max_tier_in_range v = .ok n) : n = v ∧ 0 ≤ v ∧ v ≤ 100 := by
  unfold min_max_tier_in_range at h
  by_cases hv : 0 ≤ v ∧ v ≤ 100
  · rw [if_pos hv] at h
    cases h
    exact ⟨rfl, hv⟩
  · rw [if_neg hv] at h
    exact Except.noConfusion h

theorem parseIntWith_ok {check : Int → Except String Int} {dflt : Int}
    {o : Option Doc} {p : Int × Bool} (h : parseIntWith check dflt o = .ok p) :
    (o = none ∧ p = (dflt, false)) ∨
      (∃ v, o = some (.num v) ∧ check v = .ok p.1 ∧ p.2 = true) := by
  match o with
  | none =>
    cases h
    exact .inl ⟨rfl, rfl⟩
  | some (.num v) =>
    obtain ⟨n2, hn2, h2⟩ := ebind_ok h
    cases h2
    exact .inr ⟨v, rfl, hn2, rfl⟩
  | some .null | some (.bool _) | some (.str _) | some (.list _) | some (.dict _) =>
    exact Except.noConfusion h

theorem AffixFilterCountModel.model_validator_ok {m0 m : AffixFilterCountModel}
    (h : AffixFilterCountModel.model_validator m0 = .ok m) :
    m.count = m0.count ∧ m.count.isEmpty = false ∧ m.minCount ≤ m.maxCount ∧
      m.minGreaterAffixCount = m0.minGreaterAffixCount ∧
      m.count_set = m0.count_set ∧ m.maxCount_set = m0.maxCount_set ∧
      m.minCount_set = m0.minCount_set ∧
      m.minGreaterAffixCount_set = m0.minGreaterAffixCount_set ∧
      ((m0.minCount_set = false ∧ m0.maxCount_set = false) →
        m.minCount = m0.count.length ∧ m.maxCount = m0.count.length) ∧
      (¬(m0.minCount_set = false ∧ m0.maxCount_set = false) →
        m.minCount = m0.minCount ∧ m.maxCount = m0.maxCount) := by
  unfold AffixFilterCountModel.model_validator at h
  by_cases hc : m0.minCount_set = false ∧ m0.maxCount_set = false
  · rw [if_pos hc] at h
    dsimp only at h
    rw [if_neg (lt_irrefl ((m0.count.length : Int)))] at h
    by_cases h2 : m0.count.isEmpty = true
    · rw [if_pos h2] at h
      exact Except.noConfusion h
    · rw [if_neg h2] at h
      cases h
      refine ⟨rfl, by simpa using h2, le_refl _, rfl, rfl, rfl, rfl, rfl,
        fun _ => ⟨rfl, rfl⟩, fun hn => absurd hc hn⟩
  · rw [if_neg hc] at h
    dsimp only at h
    by_cases h1 : m0.minCount > m0.maxCount
    · rw [if_pos h1] at h
      exact Except.noConfusion h
    · rw [if_neg h1] at h
      by_cases h2 : m0.count.isEmpty = true
      · rw [if_pos h2] at h
        exact Except.noConfusion h
      · rw [if_neg h2] at h
        cases h
        exact ⟨rfl, by simpa using h2, not_lt.mp h1, rfl, rfl, rfl, rfl, rfl,
          fun hcc => absurd hcc hc, fun _ => ⟨rfl, rfl⟩⟩

theorem parseAffixFilterCountModel_ok {loader : Dataloader} {kvs : List (String × Doc)}
    {m : AffixFilterCountModel}
    (h : parseAffixFilterCountModel loader (.dict kvs) = .ok m) :
    ∃ cnt mx mn mg,
      keysAllowed kvs ["count", "maxCount", "minCount", "minGreaterAffixCount"] = true ∧
      parseAffixList loader (dlookup kvs "count") = .ok cnt ∧
      parseIntWith check_greater_than_zero sys_maxsize (dlookup kvs "maxCount") = .ok mx ∧
      parseIntWith check_greater_than_zero 0 (dlookup kvs "minCount") = .ok mn ∧
      parseIntWith check_greater_than_zero 0 (dlookup kvs "minGreaterAffixCount") = .ok mg ∧
      AffixFilterCountModel.model_validator
        { count := cnt.1, maxCount := mx.1, minCount := mn.1, minGreaterAffixCount := mg.1,
          count_set := cnt.2, maxCount_set := mx.2, minCount_set := mn.2,
          minGreaterAffixCount_set := mg.2 } = .ok m := by
  unfold parseAffixFilterCountModel at h
  dsimp only at h
  by_cases hk : keysAllowed kvs ["count", "maxCount", "minCount", "minGreaterAffixCount"] = false
  · rw [if_pos hk] at h
    exact Except.noConfusion h
  · rw [if_neg hk] at h
    obtain ⟨cnt, hcnt, h⟩ := ebind_ok h
    obtain ⟨mx, hmx, h⟩ := ebind_ok h
    obtain ⟨mn, hmn, h⟩ := ebind_ok h
    obtain ⟨mg, hmg, h⟩ := ebind_ok h
    exact ⟨cnt, mx, mn, mg, Bool.not_eq_false _ ▸ hk, hcnt, hmx, hmn, hmg, h⟩

theorem List.isEmpty_false_ne_nil {l : List α} (h : l.isEmpty = false) : l ≠ [] := by
  cases l with
  | nil => cases h
  | cons x xs => exact fun hc => List.noConfusion hc

theorem dump_count_minCount_none {m : AffixFilterCountModel} (h : m.minCount_set = false) :
    dlookup (AffixFilterCountModel.dump m) "minCount" = none := by
  cases h1 : m.count_set <;> cases h2 : m.maxCount_set <;> cases h3 : m.minGreaterAffixCount_set <;>
    simp [AffixFilterCountModel.dump, optField, dlookup, h, h1, h2, h3]

theorem dump_count_maxCount_none {m : AffixFilterCountModel} (h : m.maxCount_set = false) :
    dlookup (AffixFilterCountModel.dump m) "maxCount" = none := by
  cases h1 : m.count_set <;> cases h2 : m.minCount_set <;> cases h3 : m.minGreaterAffixCount_set <;>
    simp [AffixFilterCountModel.dump, optField, dlookup, h, h1, h2, h3]

/-! ## Concrete data for the witnesses -/

/-- A small concrete catalog for witnesses. -/
def loader0 : Dataloader := ⟨["a1", "a2", "a3"], ["u1"], ["d1", "s1"]⟩

/-- The pool obtained from a document listing one affix and no bounds. -/
def pool1 : AffixFilterCountModel :=
  ⟨[⟨"a1", none, .larger, false, false⟩], 1, 1, 0, true, false, false, false⟩

/-- The pool obtained from a document listing two affixes and no bounds. -/
def pool2 : AffixFilterCountModel :=
  ⟨[⟨"a1", none, .larger, false, false⟩, ⟨"a2", none, .larger, false, false⟩],
    2, 2, 0, true, false, false, false⟩

/-- The pool obtained from a three-affix document supplying only minCount 1. -/
def pool3 : AffixFilterCountModel :=
  ⟨[⟨"a1", none, .larger, false, false⟩, ⟨"a2", none, .larger, false, false⟩,
    ⟨"a3", none, .larger, false, false⟩],
    sys_maxsize, 1, 0, true, false, true, false⟩

/-! ## The claims -/

/-- C1: an AffixFilterCountModel that validates with neither minCount nor
maxCount supplied ends up with both bounds equal to the length of its count
list, with neither field recorded as explicitly set, so an exclude-unset dump
contains neither key. -/
theorem c1_inferred_pool_bounds (loader : Dataloader) (kvs : List (String × Doc))
    (m : AffixFilterCountModel)
    (h : parseAffixFilterCountModel loader (.dict kvs) = .ok m)
    (hmin : dlookup kvs "minCount" = none) (hmax : dlookup kvs "maxCount" = none) :
    m.minCount = m.count.length ∧ m.maxCount = m.count.length ∧
      m.minCount_set = false ∧ m.maxCount_set = false ∧
      dlookup (AffixFilterCountModel.dump m) "minCount" = none ∧
      dlookup (AffixFilterCountModel.dump m) "maxCount" = none := by
  obtain ⟨cnt, mx, mn, mg, hk, hcnt, hmx, hmn, hmg, hmv⟩ := parseAffixFilterCountModel_ok h
  rw [hmin] at hmn
  rw [hmax] at hmx
  cases hmn
  cases hmx
  obtain ⟨hcount, hne, hle, hmgv, hcs, hxs, hns, hgs, hinf, _⟩ :=
    AffixFilterCountModel.model_validator_ok hmv
  have hinf2 := hinf ⟨rfl, rfl⟩
  refine ⟨?_, ?_, hns, hxs, ?_, ?_⟩
  · rw [hcount]
    exact hinf2.1
  · rw [hcount]
    exact hinf2.2
  · exact dump_count_minCount_none hns
  · exact dump_count_maxCount_none hxs

theorem c1_inferred_pool_bounds_witness :
    parseAffixFilterCountModel loader0 (.dict [("count", .list [.str "a1", .str "a2"])]) =
        .ok pool2 ∧
      dlookup [("count", .list [.str "a1", .str "a2"])] "minCount" = none ∧
      dlookup [("count", .list [.str "a1", .str "a2"])] "maxCount" = none ∧
      (pool2.minCount = pool2.count.length ∧ pool2.maxCount = pool2.count.length ∧
        pool2.minCount_set = false ∧ pool2.maxCount_set = false ∧
        dlookup (AffixFilterCountModel.dump pool2) "minCount" = none ∧
        dlookup (AffixFilterCountModel.dump pool2) "maxCount" = none) :=
  ⟨rfl, rfl, rfl,
    c1_inferred_pool_bounds loader0 [("count", .list [.str "a1", .str "a2"])] pool2 rfl rfl rfl⟩

/-- C7: no AffixFilterCountModel validates with an empty count list (the
mode-after validator rejects empty pools, inferred zero bounds included). -/
theorem c7_pool_not_empty (loader : Dataloader) (d : Doc) (m : AffixFilterCountModel)
    (h : parseAffixFilterCountModel loader d = .ok m) : m.count ≠ [] := by
  cases d with
  | dict kvs =>
    obtain ⟨cnt, mx, mn, mg, hk, hcnt, hmx, hmn, hmg, hmv⟩ := parseAffixFilterCountModel_ok h
    exact List.isEmpty_false_ne_nil (AffixFilterCountModel.model_validator_ok hmv).2.1
  | null => exact Except.noConfusion h
  | bool b => exact Except.noConfusion h
  | num n => exact Except.noConfusion h
  | str s => exact Except.noConfusion h
  | list xs => exact Except.noConfusion h

theorem c7_pool_not_empty_witness :
    parseAffixFilterCountModel loader0 (.dict [("count", .list [.str "a1"])]) = .ok pool1 ∧
      pool1.count ≠ [] :=
  ⟨rfl, c7_pool_not_empty loader0 (.dict [("count", .list [.str "a1"])]) pool1 rfl⟩

/-- C9: when exactly one of minCount and maxCount is supplied, the inference
does not run and the unsupplied bound keeps its declared default: 0 for
minCount and sys.maxsize for maxCount. -/
theorem c9_single_bound_keeps_default (loader : Dataloader) (kvs : List (String × Doc))
    (m : AffixFilterCountModel)
    (h : parseAffixFilterCountModel loader (.dict kvs) = .ok m) :
    ((∃ v, dlookup kvs "minCount" = some v) → dlookup kvs "maxCount" = none →
      m.maxCount = sys_maxsize ∧ m.maxCount_set = false) ∧
    ((∃ v, dlookup kvs "maxCount" = some v) → dlookup kvs "minCount" = none →
      m.minCount = 0 ∧ m.minCount_set = false) := by
  obtain ⟨cnt, mx, mn, mg, hk, hcnt, hmx, hmn, hmg, hmv⟩ := parseAffixFilterCountModel_ok h
  obtain ⟨hcount, hne, hle, hmgv, hcs, hxs, hns, hgs, hinf, hninf⟩ :=
    AffixFilterCountModel.model_validator_ok hmv
  constructor
  · rintro ⟨v, hv⟩ hnone
    rw [hv] at hmn
    rw [hnone] at hmx
    cases hmx
    rcases parseIntWith_ok hmn with ⟨hcontra, _⟩ | ⟨w, hw, hcheck, htrue⟩
    · cases hcontra
    · have hni : ¬(mn.2 = false ∧ (((sys_maxsize, false) : Int × Bool)).2 = false) := by
        rw [htrue]
        rintro ⟨hff, _⟩
        cases hff
      exact ⟨(hninf hni).2, hxs⟩
  · rintro ⟨v, hv⟩ hnone
    rw [hv] at hmx
    rw [hnone] at hmn
    cases hmn
    rcases parseIntWith_ok hmx with ⟨hcontra, _⟩ | ⟨w, hw, hcheck, htrue⟩
    · cases hcontra
    · have hni : ¬((((0, false) : Int × Bool)).2 = false ∧ mx.2 = false) := by
        rw [htrue]
        rintro ⟨_, hff⟩
        cases hff
      exact ⟨(hninf hni).1, hns⟩

/-- The document of the three-affix pool supplying only minCount 1. -/
def pool3kvs : List (String × Doc) :=
  [("count", .list [.str "a1", .str "a2", .str "a3"]), ("minCount", .num 1)]

theorem c9_single_bound_keeps_default_witness :
    parseAffixFilterCountModel loader0 (.dict pool3kvs) = .ok pool3 ∧
      (∃ v, dlookup pool3kvs "minCount" = some v) ∧
      dlookup pool3kvs "maxCount" = none ∧
      (pool3.maxCount = sys_maxsize ∧ pool3.maxCount_set = false) ∧
      pool3.maxCount > pool3.count.length :=
  ⟨rfl, ⟨.num 1, rfl⟩, rfl,
    (c9_single_bound_keeps_default loader0 pool3kvs pool3 rfl).1 ⟨.num 1, rfl⟩ rfl,
    by decide⟩

theorem SigilFilterModel.data_integrity_ok {m0 m : SigilFilterModel}
    (h : SigilFilterModel.data_integrity m0 = .ok m) :
    m = m0 ∧
      (m0.blacklist.filter fun item => m0.whitelist.any fun w => item.pyEq w) = [] ∧
      m0.minTier ≤ m0.maxTier := by
  unfold SigilFilterModel.data_integrity at h
  dsimp only at h
  by_cases h1 : (m0.blacklist.filter fun item => m0.whitelist.any fun w => item.pyEq w).isEmpty = false
  · rw [if_pos h1] at h
    exact Except.noConfusion h
  · rw [if_neg h1] at h
    by_cases h2 : m0.minTier > m0.maxTier
    · rw [if_pos h2] at h
      exact Except.noConfusion h
    · rw [if_neg h2] at h
      cases h
      refine ⟨rfl, ?_, not_lt.mp h2⟩
      have := Bool.not_eq_false _ ▸ h1
      exact List.isEmpty_iff.mp this

theorem parseSigilFilterModel_ok {loader : Dataloader} {kvs : List (String × Doc)}
    {m : SigilFilterModel} (h : parseSigilFilterModel loader (.dict kvs) = .ok m) :
    ∃ bl mx mn pr wl,
      keysAllowed kvs ["blacklist", "maxTier", "minTier", "priority", "whitelist"] = true ∧
      parseSigilList loader (dlookup kvs "blacklist") = .ok bl ∧
      parseIntWith min_max_tier_in_range sys_maxsize (dlookup kvs "maxTier") = .ok mx ∧
      parseIntWith min_max_tier_in_range 0 (dlookup kvs "minTier") = .ok mn ∧
      parsePriorityField (dlookup kvs "priority") = .ok pr ∧
      parseSigilList loader (dlookup kvs "whitelist") = .ok wl ∧
      SigilFilterModel.data_integrity
        { blacklist := bl.1, maxTier := mx.1, minTier := mn.1, priority := pr.1,
          whitelist := wl.1, blacklist_set := bl.2, maxTier_set := mx.2, minTier_set := mn.2,
          priority_set := pr.2, whitelist_set := wl.2 } = .ok m := by
  unfold parseSigilFilterModel at h
  dsimp only at h
  by_cases hk : keysAllowed kvs ["blacklist", "maxTier", "minTier", "priority", "whitelist"] = false
  · rw [if_pos hk] at h
    exact Except.noConfusion h
  · rw [if_neg hk] at h
    obtain ⟨bl, hbl, h⟩ := ebind_ok h
    obtain ⟨mx, hmx, h⟩ := ebind_ok h
    obtain ⟨mn, hmn, h⟩ := ebind_ok h
    obtain ⟨pr, hpr, h⟩ := ebind_ok h
    obtain ⟨wl, hwl, h⟩ := ebind_ok h
    exact ⟨bl, mx, mn, pr, wl, Bool.not_eq_false _ ▸ hk, hbl, hmx, hmn, hpr, hwl, h⟩

theorem parseItemFilterModel_ok {loader : Dataloader} {itemTypes : List String}
    {kvs : List (String × Doc)} {m : ItemFilterModel}
    (h : parseItemFilterModel loader itemTypes (.dict kvs) = .ok m) :
    ∃ ap ip it mg mp,
      keysAllowed kvs ["affixPool", "inherentPool", "itemType", "minGreaterAffixCount", "minPower"] = true ∧
      parseCountList loader (dlookup kvs "affixPool") = .ok ap ∧
      parseCountList loader (dlookup kvs "inherentPool") = .ok ip ∧
      parseItemTypeList itemTypes (dlookup kvs "itemType") = .ok it ∧
      parseIntWith min_greater_affix_in_range 0 (dlookup kvs "minGreaterAffixCount") = .ok mg ∧
      parseIntWith check_greater_than_zero 0 (dlookup kvs "minPower") = .ok mp ∧
      m = { affixPool := ap.1, inherentPool := ip.1, itemType := it.1,
            minGreaterAffixCount := mg.1, minPower := mp.1,
            affixPool_set := ap.2, inherentPool_set := ip.2, itemType_set := it.2,
            minGreaterAffixCount_set := mg.2, minPower_set := mp.2 } := by
  unfold parseItemFilterModel at h
  dsimp only at h
  by_cases hk : keysAllowed kvs
      ["affixPool", "inherentPool", "itemType", "minGreaterAffixCount", "minPower"] = false
  · rw [if_pos hk] at h
    exact Except.noConfusion h
  · rw [if_neg hk] at h
    obtain ⟨ap, hap, h⟩ := ebind_ok h
    obtain ⟨ip, hip, h⟩ := ebind_ok h
    obtain ⟨it, hit, h⟩ := ebind_ok h
    obtain ⟨mg, hmg, h⟩ := ebind_ok h
    obtain ⟨mp, hmp, h⟩ := ebind_ok h
    cases h
    exact ⟨ap, ip, it, mg, mp, Bool.not_eq_false _ ▸ hk, hap, hip, hit, hmg, hmp, rfl⟩

theorem parseUniqueModel_ok {loader : Dataloader} {itemTypes : List String}
    {kvs : List (String × Doc)} {m : UniqueModel}
    (h : parseUniqueModel loader itemTypes (.dict kvs) = .ok m) :
    ∃ af asp it mg mp,
      keysAllowed kvs ["affix", "aspect", "itemType", "minGreaterAffixCount", "minPower"] = true ∧
      parseAffixList loader (dlookup kvs "affix") = .ok af ∧
      parseAspectField loader (dlookup kvs "aspect") = .ok asp ∧
      parseItemTypeList itemTypes (dlookup kvs "itemType") = .ok it ∧
      parseIntWith check_greater_than_zero 0 (dlookup kvs "minGreaterAffixCount") = .ok mg ∧
      parseIntWith check_greater_than_zero 0 (dlookup kvs "minPower") = .ok mp ∧
      m = { affix := af.1, aspect := asp.1, itemType := it.1,
            minGreaterAffixCount := mg.1, minPower := mp.1,
            affix_set := af.2, aspect_set := asp.2, itemType_set := it.2,
            minGreaterAffixCount_set := mg.2, minPower_set := mp.2 } := by
  unfold parseUniqueModel at h
  dsimp only at h
  by_cases hk : keysAllowed kvs
      ["affix", "aspect", "itemType", "minGreaterAffixCount", "minPower"] = false
  · rw [if_pos hk] at h
    exact Except.noConfusion h
  · rw [if_neg hk] at h
    obtain ⟨af, haf, h⟩ := ebind_ok h
    obtain ⟨asp, hasp, h⟩ := ebind_ok h
    obtain ⟨it, hit, h⟩ := ebind_ok h
    obtain ⟨mg, hmg, h⟩ := ebind_ok h
    obtain ⟨mp, hmp, h⟩ := ebind_ok h
    cases h
    exact ⟨af, asp, it, mg, mp, Bool.not_eq_false _ ▸ hk, haf, hasp, hit, hmg, hmp, rfl⟩

/-- The SigilFilterModel built from an all-defaults (empty) document. -/
def sigilDefault : SigilFilterModel :=
  ⟨[], sys_maxsize, 0, .blacklist, [], false, false, false, false, false⟩

/-- C3 counterexample: an empty sigil document validates, yet its default
maxTier is sys.maxsize, far above 100 (field validators do not run on
defaults), so the claimed invariant maxTier at most 100 fails. -/
theorem c3_counterexample_default_maxTier :
    parseSigilFilterModel loader0 (.dict []) = .ok sigilDefault ∧
      ¬(sigilDefault.maxTier ≤ 100) :=
  ⟨rfl, by decide⟩

/-- C3 amended: every validated SigilFilterModel satisfies
0 at most minTier at most maxTier and minTier at most 100; a supplied maxTier
additionally lies in [0, 100], while an unsupplied maxTier keeps the default
sys.maxsize (which exceeds 100). -/
theorem c3_amended_tier_bounds (loader : Dataloader) (d : Doc) (m : SigilFilterModel)
    (h : parseSigilFilterModel loader d = .ok m) :
    0 ≤ m.minTier ∧ m.minTier ≤ m.maxTier ∧ m.minTier ≤ 100 ∧
      (m.maxTier_set = true → 0 ≤ m.maxTier ∧ m.maxTier ≤ 100) ∧
      (m.maxTier_set = false → m.maxTier = sys_maxsize) := by
  cases d with
  | dict kvs =>
    obtain ⟨bl, mx, mn, pr, wl, hk, hbl, hmx, hmn, hpr, hwl, hdi⟩ := parseSigilFilterModel_ok h
    obtain ⟨hm, hdisj, hle⟩ := SigilFilterModel.data_integrity_ok hdi
    subst hm
    have hmin : 0 ≤ mn.1 ∧ mn.1 ≤ 100 := by
      rcases parseIntWith_ok hmn with ⟨_, hp⟩ | ⟨v, _, hch, _⟩
      · rw [hp]
        exact ⟨le_refl 0, by norm_num⟩
      · obtain ⟨he, h0, h100⟩ := min_max_tier_in_range_ok hch
        exact he ▸ ⟨h0, h100⟩
    refine ⟨hmin.1, hle, hmin.2, ?_, ?_⟩
    · intro hset
      rcases parseIntWith_ok hmx with ⟨_, hp⟩ | ⟨v, _, hch, _⟩
      · rw [hp] at hset
        cases hset
      · obtain ⟨he, h0, h100⟩ := min_max_tier_in_range_ok hch
        exact he ▸ ⟨h0, h100⟩
    · intro hset
      rcases parseIntWith_ok hmx with ⟨_, hp⟩ | ⟨v, _, hch, htrue⟩
      · rw [hp]
      · rw [htrue] at hset
        cases hset
  | null => exact Except.noConfusion h
  | bool b => exact Except.noConfusion h
  | num n => exact Except.noConfusion h
  | str s => exact Except.noConfusion h
  | list xs => exact Except.noConfusion h

/-- A sigil policy with supplied tier bounds 10 and 50. -/
def sigil1 : SigilFilterModel :=
  ⟨[], 50, 10, .blacklist, [], false, true, true, false, false⟩

theorem c3_amended_tier_bounds_witness :
    parseSigilFilterModel loader0 (.dict [("minTier", .num 10), ("maxTier", .num 50)]) =
        .ok sigil1 ∧
      (0 ≤ sigil1.minTier ∧ sigil1.minTier ≤ sigil1.maxTier ∧ sigil1.minTier ≤ 100 ∧
        (sigil1.maxTier_set = true → 0 ≤ sigil1.maxTier ∧ sigil1.maxTier ≤ 100) ∧
        (sigil1.maxTier_set = false → sigil1.maxTier = sys_maxsize)) :=
  ⟨rfl, c3_amended_tier_bounds loader0
    (.dict [("minTier", .num 10), ("maxTier", .num 50)]) sigil1 rfl⟩

/-- The UniqueModel built from a document supplying only minGreaterAffixCount 4. -/
def unique4 : UniqueModel :=
  ⟨[], none, [], 4, 0, false, false, false, true, false⟩

/-- C4 counterexample: a UniqueModel whose supplied minGreaterAffixCount is 4,
outside [0, 3], still validates, because UniqueModel.count_validator only
checks nonnegativity. -/
theorem c4_counterexample_unique_accepts_four :
    parseUniqueModel loader0 [] (.dict [("minGreaterAffixCount", .num 4)]) = .ok unique4 ∧
      ¬(unique4.minGreaterAffixCount ≤ 3) :=
  ⟨rfl, by decide⟩

/-- C4 amended: validated ItemFilterModel rules have minGreaterAffixCount in
[0, 3]; validated UniqueModel rules are only guaranteed a nonnegative
minGreaterAffixCount (a supplied value above 3 passes). -/
theorem c4_amended_greater_affix_ranges :
    (∀ (loader : Dataloader) (itemTypes : List String) (d : Doc) (m : ItemFilterModel),
      parseItemFilterModel loader itemTypes d = .ok m →
        0 ≤ m.minGreaterAffixCount ∧ m.minGreaterAffixCount ≤ 3) ∧
    (∀ (loader : Dataloader) (itemTypes : List String) (d : Doc) (m : UniqueModel),
      parseUniqueModel loader itemTypes d = .ok m → 0 ≤ m.minGreaterAffixCount) := by
  constructor
  · intro loader itemTypes d m h
    cases d with
    | dict kvs =>
      obtain ⟨ap, ip, it, mg, mp, hk, hap, hip, hit, hmg, hmp, hm⟩ := parseItemFilterModel_ok h
      subst hm
      rcases parseIntWith_ok hmg with ⟨_, hp⟩ | ⟨v, _, hch, _⟩
      · rw [hp]
        exact ⟨le_refl 0, by norm_num⟩
      · obtain ⟨he, h0, h3⟩ := min_greater_affix_in_range_ok hch
        exact he ▸ ⟨h0, h3⟩
    | null => exact Except.noConfusion h
    | bool b => exact Except.noConfusion h
    | num n => exact Except.noConfusion h
    | str s => exact Except.noConfusion h
    | list xs => exact Except.noConfusion h
  · intro loader itemTypes d m h
    cases d with
    | dict kvs =>
      obtain ⟨af, asp, it, mg, mp, hk, haf, hasp, hit, hmg, hmp, hm⟩ := parseUniqueModel_ok h
      subst hm
      rcases parseIntWith_ok hmg with ⟨_, hp⟩ | ⟨v, _, hch, _⟩
      · rw [hp]
      · exact (check_gtz_ok hch).1 ▸ (check_gtz_ok hch).2
    | null => exact Except.noConfusion h
    | bool b => exact Except.noConfusion h
    | num n => exact Except.noConfusion h
    | str s => exact Except.noConfusion h
    | list xs => exact Except.noConfusion h

/-- The ItemFilterModel built from a document supplying minGreaterAffixCount 2. -/
def item2 : ItemFilterModel :=
  ⟨[], [], [], 2, 0, false, false, false, true, false⟩

theorem c4_amended_greater_affix_ranges_witness :
    parseItemFilterModel loader0 [] (.dict [("minGreaterAffixCount", .num 2)]) = .ok item2 ∧
      (0 ≤ item2.minGreaterAffixCount ∧ item2.minGreaterAffixCount ≤ 3) ∧
      parseUniqueModel loader0 [] (.dict [("minGreaterAffixCount", .num 4)]) = .ok unique4 ∧
      0 ≤ unique4.minGreaterAffixCount :=
  ⟨rfl,
    c4_amended_greater_affix_ranges.1 loader0 []
      (.dict [("minGreaterAffixCount", .num 2)]) item2 rfl,
    rfl,
    c4_amended_greater_affix_ranges.2 loader0 []
      (.dict [("minGreaterAffixCount", .num 4)]) unique4 rfl⟩

/-- C8: a validated SigilFilterModel has disjoint blacklist and whitelist
(pydantic model equality, which compares the name and condition values);
equivalently any overlap is rejected by the data_integrity validator. -/
theorem c8_blacklist_whitelist_disjoint (loader : Dataloader) (d : Doc) (m : SigilFilterModel)
    (h : parseSigilFilterModel loader d = .ok m) :
    ∀ b ∈ m.blacklist, ∀ w ∈ m.whitelist, b.pyEq w = false := by
  cases d with
  | dict kvs =>
    obtain ⟨bl, mx, mn, pr, wl, hk, hbl, hmx, hmn, hpr, hwl, hdi⟩ := parseSigilFilterModel_ok h
    obtain ⟨hm, hdisj, hle⟩ := SigilFilterModel.data_integrity_ok hdi
    subst hm
    intro b hb w hw
    have hnot := List.filter_eq_nil_iff.mp hdisj b hb
    rw [Bool.not_eq_true] at hnot
    have hany : ∀ w2 ∈ wl.1, ¬(b.pyEq w2 = true) := by
      intro w2 hw2 hc
      have : (wl.1.any fun w3 => b.pyEq w3) = true := List.any_eq_true.mpr ⟨w2, hw2, hc⟩
      rw [this] at hnot
      cases hnot
    exact Bool.not_eq_true _ ▸ hany w hw
  | null => exact Except.noConfusion h
  | bool b => exact Except.noConfusion h
  | num n => exact Except.noConfusion h
  | str s => exact Except.noConfusion h
  | list xs => exact Except.noConfusion h

/-- The document of a sigil policy with one blacklist and one whitelist entry. -/
def sigil2doc : Doc :=
  .dict [("blacklist", .list [.str "d1"]), ("whitelist", .list [.str "s1"])]

/-- The sigil policy parsed from sigil2doc. -/
def sigil2 : SigilFilterModel :=
  ⟨[⟨"d1", [], false⟩], sys_maxsize, 0, .blacklist, [⟨"s1", [], false⟩],
    true, false, false, false, true⟩

theorem c8_blacklist_whitelist_disjoint_witness :
    parseSigilFilterModel loader0 sigil2doc = .ok sigil2 ∧
      SigilConditionModel.pyEq ⟨"d1", [], false⟩ ⟨"s1", [], false⟩ = false :=
  ⟨rfl,
    c8_blacklist_whitelist_disjoint loader0 sigil2doc sigil2 rfl
      ⟨"d1", [], false⟩ (by decide) ⟨"s1", [], false⟩ (by decide)⟩

/-- C5: shorthand normalisation.  A bare string parses exactly like its
one-element list for both affix/aspect rules and sigil conditions; a list of
1 to 3 entries maps positionally to name, value, comparison for affix/aspect
rules; a non-empty list maps to name plus remaining conditions for sigil
conditions; an empty list, a more-than-3-item list (affix/aspect only) and
any non-string non-list non-mapping input fail validation. -/
theorem c5_shorthand_normalisation :
    (∀ (loader : Dataloader) (s : String),
      parseAffixFilterModel loader (.str s) = parseAffixFilterModel loader (.list [.str s])) ∧
    (∀ (loader : Dataloader) (s : String),
      parseSigilConditionModel loader (.str s) =
        parseSigilConditionModel loader (.list [.str s])) ∧
    (∀ a : Doc, AffixAspectFilterModel.parse_data (.list [a]) = .ok [("name", a)]) ∧
    (∀ a b : Doc,
      AffixAspectFilterModel.parse_data (.list [a, b]) = .ok [("name", a), ("value", b)]) ∧
    (∀ a b c : Doc,
      AffixAspectFilterModel.parse_data (.list [a, b, c]) =
        .ok [("name", a), ("value", b), ("comparison", c)]) ∧
    (∀ a : Doc, SigilConditionModel.parse_data (.list [a]) = .ok [("name", a)]) ∧
    (∀ (a : Doc) (rest : List Doc), rest ≠ [] →
      SigilConditionModel.parse_data (.list (a :: rest)) =
        .ok [("name", a), ("condition", .list rest)]) ∧
    (∀ loader : Dataloader,
      parseAffixFilterModel loader (.list []) =
        .error "list, cannot be empty or larger than 3 items") ∧
    (∀ (loader : Dataloader) (xs : List Doc), xs.length > 3 →
      parseAffixFilterModel loader (.list xs) =
        .error "list, cannot be empty or larger than 3 items") ∧
    (∀ loader : Dataloader,
      parseSigilConditionModel loader (.list []) = .error "list cannot be empty") ∧
    (∀ (loader : Dataloader) (n : Int),
      parseAffixFilterModel loader (.num n) = .error "must be str or list" ∧
      parseSigilConditionModel loader (.num n) = .error "must be str or list") ∧
    (∀ loader : Dataloader,
      parseAffixFilterModel loader .null = .error "must be str or list" ∧
      parseSigilConditionModel loader .null = .error "must be str or list") ∧
    (∀ (loader : Dataloader) (b : Bool),
      parseAffixFilterModel loader (.bool b) = .error "must be str or list" ∧
      parseSigilConditionModel loader (.bool b) = .error "must be str or list") := by
  refine ⟨fun loader s => rfl, fun loader s => rfl, fun a => rfl, fun a b => rfl,
    fun a b c => rfl, fun a => rfl, ?_, fun loader => rfl, ?_, fun loader => rfl,
    fun loader n => ⟨rfl, rfl⟩, fun loader => ⟨rfl, rfl⟩, fun loader b => ⟨rfl, rfl⟩⟩
  · intro a rest h
    cases rest with
    | nil => exact absurd rfl h
    | cons x t => rfl
  · intro loader xs h
    have hdata : AffixAspectFilterModel.parse_data (.list xs) =
        .error "list, cannot be empty or larger than 3 items" := by
      unfold AffixAspectFilterModel.parse_data
      dsimp only
      rw [if_pos (Or.inr h)]
    unfold parseAffixFilterModel
    rw [hdata]
    rfl

theorem c5_shorthand_normalisation_witness :
    ([Doc.str "c1"] ≠ ([] : List Doc) ∧
      SigilConditionModel.parse_data (.list [.str "d1", .str "c1"]) =
        .ok [("name", .str "d1"), ("condition", .list [.str "c1"])]) ∧
    ([Doc.str "a1", Doc.num 1, Doc.str "larger", Doc.num 2].length > 3 ∧
      parseAffixFilterModel loader0 (.list [.str "a1", .num 1, .str "larger", .num 2]) =
        .error "list, cannot be empty or larger than 3 items") :=
  ⟨⟨List.cons_ne_nil _ _,
    c5_shorthand_normalisation.2.2.2.2.2.2.1 (.str "d1") [.str "c1"] (List.cons_ne_nil _ _)⟩,
    ⟨by norm_num,
      c5_shorthand_normalisation.2.2.2.2.2.2.2.2.1 loader0
        [.str "a1", .num 1, .str "larger", .num 2] (by norm_num)⟩⟩

/-- C6: every name reference is resolved against the catalog: the per-field
existence validators fail exactly on names missing from their dictionary and
interpolate the offending name(s) into the error message, and names that are
present pass through unchanged; a missing name makes the whole rule fail. -/
theorem c6_catalog_name_resolution :
    (∀ (loader : Dataloader) (name : String), name ∉ loader.affix_dict →
      AffixFilterModel.name_must_exist loader name = .error (affix_not_exist_msg name)) ∧
    (∀ (loader : Dataloader) (name : String), name ∈ loader.affix_dict →
      AffixFilterModel.name_must_exist loader name = .ok name) ∧
    (∀ (loader : Dataloader) (name : String), name ∉ loader.aspect_unique_dict →
      AspectUniqueFilterModel.name_must_exist loader name = .error (affix_not_exist_msg name)) ∧
    (∀ (loader : Dataloader) (name : String), name ∈ loader.aspect_unique_dict →
      AspectUniqueFilterModel.name_must_exist loader name = .ok name) ∧
    (∀ (loader : Dataloader) (names : List String),
      (names.filter fun n => decide (n ∉ loader.affix_sigil_dict)) ≠ [] →
      SigilConditionModel.name_must_exist loader names =
        .error (sigil_names_not_exist_msg
          (names.filter fun n => decide (n ∉ loader.affix_sigil_dict)))) ∧
    (∀ (loader : Dataloader) (names : List String),
      (∀ n ∈ names, n ∈ loader.affix_sigil_dict) →
      SigilConditionModel.name_must_exist loader names = .ok names) ∧
    (∀ (loader : Dataloader) (s : String), s ∉ loader.affix_dict →
      parseAffixFilterModel loader (.str s) = .error (affix_not_exist_msg s)) ∧
    (∀ (loader : Dataloader) (s : String), s ∉ loader.affix_sigil_dict →
      parseSigilConditionModel loader (.str s) = .error (sigil_names_not_exist_msg [s])) := by
  refine ⟨?_, ?_, ?_, ?_, ?_, ?_, ?_, ?_⟩
  · intro loader name h
    unfold AffixFilterModel.name_must_exist
    rw [if_neg h]
  · intro loader name h
    unfold AffixFilterModel.name_must_exist
    rw [if_pos h]
  · intro loader name h
    unfold AspectUniqueFilterModel.name_must_exist
    rw [if_neg h]
  · intro loader name h
    unfold AspectUniqueFilterModel.name_must_exist
    rw [if_pos h]
  · intro loader names h
    unfold SigilConditionModel.name_must_exist
    dsimp only
    rw [if_neg fun hc => h (List.isEmpty_iff.mp hc)]
  · intro loader names h
    have hnil : (names.filter fun n => decide (n ∉ loader.affix_sigil_dict)) = [] :=
      List.filter_eq_nil_iff.mpr fun n hn => by simp [h n hn]
    unfold SigilConditionModel.name_must_exist
    dsimp only
    rw [hnil]
    rfl
  · intro loader s h
    simp [parseAffixFilterModel, AffixAspectFilterModel.parse_data, parseAffixAspectFields,
      parseNameField, dlookup, keysAllowed, AffixFilterModel.name_must_exist, h]
  · intro loader s h
    simp [parseSigilConditionModel, SigilConditionModel.parse_data, parseNameField,
      dlookup, keysAllowed, SigilConditionModel.name_must_exist, h,
      sigil_names_not_exist_msg]

theorem c6_catalog_name_resolution_witness :
    ("nope" ∉ loader0.affix_dict) ∧
      AffixFilterModel.name_must_exist loader0 "nope" = .error (affix_not_exist_msg "nope") ∧
      ("a1" ∈ loader0.affix_dict) ∧
      AffixFilterModel.name_must_exist loader0 "a1" = .ok "a1" ∧
      parseAffixFilterModel loader0 (.str "nope") = .error (affix_not_exist_msg "nope") :=
  ⟨by decide, c6_catalog_name_resolution.1 loader0 "nope" (by decide), by decide,
    c6_catalog_name_resolution.2.1 loader0 "a1" (by decide),
    c6_catalog_name_resolution.2.2.2.2.2.2.1 loader0 "nope" (by decide)⟩

theorem parseAffixAspectFields_default_comparison {nameCheck : String → Except String String}
    {kvs : List (String × Doc)} {m : AffixAspectFilterModel}
    (hnone : dlookup kvs "comparison" = none)
    (h : parseAffixAspectFields nameCheck kvs = .ok m) : m.comparison = .larger := by
  unfold parseAffixAspectFields at h
  by_cases hk : keysAllowed kvs ["name", "value", "comparison"] = false
  · rw [if_pos hk] at h
    exact Except.noConfusion h
  · rw [if_neg hk] at h
    obtain ⟨nm, hnm, h⟩ := ebind_ok h
    obtain ⟨v, hv, h⟩ := ebind_ok h
    obtain ⟨c, hc, h⟩ := ebind_ok h
    cases h
    rw [hnone] at hc
    cases hc
    rfl

/-- C10: an affix or aspect rule parsed without an explicit comparison (bare
string, one- or two-element list, or mapping without the comparison key) gets
the default comparison larger. -/
theorem c10_default_comparison_larger :
    (∀ (loader : Dataloader) (s : String) (m : AffixAspectFilterModel),
      parseAffixFilterModel loader (.str s) = .ok m → m.comparison = .larger) ∧
    (∀ (loader : Dataloader) (a : Doc) (m : AffixAspectFilterModel),
      parseAffixFilterModel loader (.list [a]) = .ok m → m.comparison = .larger) ∧
    (∀ (loader : Dataloader) (a b : Doc) (m : AffixAspectFilterModel),
      parseAffixFilterModel loader (.list [a, b]) = .ok m → m.comparison = .larger) ∧
    (∀ (loader : Dataloader) (kvs : List (String × Doc)) (m : AffixAspectFilterModel),
      dlookup kvs "comparison" = none →
      parseAffixFilterModel loader (.dict kvs) = .ok m → m.comparison = .larger) ∧
    (∀ (loader : Dataloader) (s : String) (m : AffixAspectFilterModel),
      parseAspectUniqueFilterModel loader (.str s) = .ok m → m.comparison = .larger) ∧
    (∀ (loader : Dataloader) (a : Doc) (m : AffixAspectFilterModel),
      parseAspectUniqueFilterModel loader (.list [a]) = .ok m → m.comparison = .larger) ∧
    (∀ (loader : Dataloader) (a b : Doc) (m : AffixAspectFilterModel),
      parseAspectUniqueFilterModel loader (.list [a, b]) = .ok m → m.comparison = .larger) ∧
    (∀ (loader : Dataloader) (kvs : List (String × Doc)) (m : AffixAspectFilterModel),
      dlookup kvs "comparison" = none →
      parseAspectUniqueFilterModel loader (.dict kvs) = .ok m → m.comparison = .larger) :=
  ⟨fun loader s m h =>
      @parseAffixAspectFields_default_comparison (AffixFilterModel.name_must_exist loader)
        [("name", .str s)] m rfl h,
    fun loader a m h =>
      @parseAffixAspectFields_default_comparison (AffixFilterModel.name_must_exist loader)
        [("name", a)] m rfl h,
    fun loader a b m h =>
      @parseAffixAspectFields_default_comparison (AffixFilterModel.name_must_exist loader)
        [("name", a), ("value", b)] m rfl h,
    fun _loader _kvs _m hn h => parseAffixAspectFields_default_comparison hn h,
    fun loader s m h =>
      @parseAffixAspectFields_default_comparison (AspectUniqueFilterModel.name_must_exist loader)
        [("name", .str s)] m rfl h,
    fun loader a m h =>
      @parseAffixAspectFields_default_comparison (AspectUniqueFilterModel.name_must_exist loader)
        [("name", a)] m rfl h,
    fun loader a b m h =>
      @parseAffixAspectFields_default_comparison (AspectUniqueFilterModel.name_must_exist loader)
        [("name", a), ("value", b)] m rfl h,
    fun _loader _kvs _m hn h => parseAffixAspectFields_default_comparison hn h⟩

/-- The affix rule parsed from the bare string a1. -/
def affix1 : AffixAspectFilterModel := ⟨"a1", none, .larger, false, false⟩

theorem c10_default_comparison_larger_witness :
    parseAffixFilterModel loader0 (.str "a1") = .ok affix1 ∧ affix1.comparison = .larger :=
  ⟨rfl, c10_default_comparison_larger.1 loader0 "a1" affix1 rfl⟩

/-! ## Round-trip machinery: looking keys up in exclude-unset dumps -/

@[simp]
theorem dlookup_nil {k : String} : dlookup [] k = none := rfl

@[simp]
theorem dlookup_cons {k1 k : String} {v : Doc} {rest : List (String × Doc)} :
    dlookup ((k1, v) :: rest) k = if k1 = k then some v else dlookup rest k := rfl

@[simp]
theorem dlookup_append {l1 l2 : List (String × Doc)} {k : String} :
    dlookup (l1 ++ l2) k = (dlookup l1 k <|> dlookup l2 k) := by
  induction l1 with
  | nil => simp [dlookup]
  | cons kv rest ih =>
    obtain ⟨k1, v⟩ := kv
    by_cases h : k1 = k <;> simp [dlookup, h, ih]

@[simp]
theorem dlookup_optField_self {k : String} {st : Bool} {v : Doc} :
    dlookup (optField k st v) k = if st then some v else none := by
  cases st <;> simp [optField, dlookup]

@[simp]
theorem dlookup_optField_ne {k1 k2 : String} (h : ¬k1 = k2) {st : Bool} {v : Doc} :
    dlookup (optField k1 st v) k2 = none := by
  cases st <;> simp [optField, dlookup, h]

@[simp]
theorem keysAllowed_nil {al : List String} : keysAllowed [] al = true := rfl

@[simp]
theorem keysAllowed_cons {k : String} {v : Doc} {rest : List (String × Doc)} {al : List String} :
    keysAllowed ((k, v) :: rest) al = (al.contains k && keysAllowed rest al) := by
  simp [keysAllowed]

@[simp]
theorem keysAllowed_append {l1 l2 : List (String × Doc)} {al : List String} :
    keysAllowed (l1 ++ l2) al = (keysAllowed l1 al && keysAllowed l2 al) := by
  simp [keysAllowed, List.all_append]

@[simp]
theorem keysAllowed_optField {k : String} {st : Bool} {v : Doc} {al : List String} :
    keysAllowed (optField k st v) al = (!st || al.contains k) := by
  cases st <;> simp [optField, keysAllowed]

@[simp]
theorem comparison_ofStr_toStr (c : ComparisonType) : ComparisonType.ofStr c.toStr = some c := by
  cases c <;> rfl

@[simp]
theorem priority_ofStr_toStr (p : SigilPriority) : SigilPriority.ofStr p.toStr = some p := by
  cases p <;> rfl

/-- Reparsing an optional integer field from its exclude-unset dump recovers
value and set-flag, provided a set value passes its validator and an unset
value is the default. -/
theorem parseIntWith_if {check : Int → Except String Int} {dflt v : Int} {st : Bool}
    (hset : st = true → check v = .ok v) (hunset : st = false → v = dflt) :
    parseIntWith check dflt (if st then some (.num v) else none) = .ok (v, st) := by
  cases st
  · rw [hunset rfl]
    rfl
  · simp [parseIntWith, hset rfl]

/-! ## Round trip for AffixAspectFilterModel -/

theorem parseNameField_ok {nameCheck : String → Except String String} {o : Option Doc}
    {nm : String} (h : parseNameField nameCheck o = .ok nm) :
    ∃ s, o = some (.str s) ∧ nameCheck s = .ok nm := by
  match o with
  | none => exact Except.noConfusion h
  | some (.str s) => exact ⟨s, rfl, h⟩
  | some .null | some (.bool _) | some (.num _) | some (.list _) | some (.dict _) =>
    exact Except.noConfusion h

theorem parseValueField_ok {o : Option Doc} {p : Option Int × Bool}
    (h : parseValueField o = .ok p) :
    (o = none ∧ p = (none, false)) ∨ (o = some .null ∧ p = (none, true)) ∨
      (∃ n, o = some (.num n) ∧ p = (some n, true)) := by
  match o with
  | none => cases h; exact .inl ⟨rfl, rfl⟩
  | some .null => cases h; exact .inr (.inl ⟨rfl, rfl⟩)
  | some (.num n) => cases h; exact .inr (.inr ⟨n, rfl, rfl⟩)
  | some (.bool _) | some (.str _) | some (.list _) | some (.dict _) =>
    exact Except.noConfusion h

theorem parseComparisonField_ok {o : Option Doc} {p : ComparisonType × Bool}
    (h : parseComparisonField o = .ok p) :
    (o = none ∧ p = (.larger, false)) ∨
      (∃ s, o = some (.str s) ∧ ComparisonType.ofStr s = some p.1 ∧ p.2 = true) := by
  match o with
  | none => cases h; exact .inl ⟨rfl, rfl⟩
  | some (.str s) =>
    refine .inr ⟨s, rfl, ?_⟩
    match hc : ComparisonType.ofStr s with
    | some c =>
      rw [show parseComparisonField (some (.str s)) =
        (match ComparisonType.ofStr s with
         | some c => .ok (c, true)
         | none => .error "comparison: input should be larger or smaller") from rfl, hc] at h
      cases h
      exact ⟨rfl, rfl⟩
    | none =>
      rw [show parseComparisonField (some (.str s)) =
        (match ComparisonType.ofStr s with
         | some c => .ok (c, true)
         | none => .error "comparison: input should be larger or smaller") from rfl, hc] at h
      exact Except.noConfusion h
  | some .null | some (.bool _) | some (.num _) | some (.list _) | some (.dict _) =>
    exact Except.noConfusion h

theorem parseValueField_unset {o : Option Doc} {p : Option Int × Bool}
    (h : parseValueField o = .ok p) : p.2 = false → p.1 = none := by
  match o with
  | none => cases h; exact fun _ => rfl
  | some .null => cases h; exact fun hc => Bool.noConfusion hc
  | some (.num n) => cases h; exact fun hc => Bool.noConfusion hc
  | some (.bool _) | some (.str _) | some (.list _) | some (.dict _) =>
    exact Except.noConfusion h

theorem parseComparisonField_unset {o : Option Doc} {p : ComparisonType × Bool}
    (h : parseComparisonField o = .ok p) : p.2 = false → p.1 = .larger := by
  match o with
  | none => cases h; exact fun _ => rfl
  | some (.str s) =>
    rw [show parseComparisonField (some (.str s)) =
      (match ComparisonType.ofStr s with
       | some c => .ok (c, true)
       | none => .error "comparison: input should be larger or smaller") from rfl] at h
    match hc : ComparisonType.ofStr s with
    | some c =>
      rw [hc] at h
      cases h
      exact fun hcon => Bool.noConfusion hcon
    | none =>
      rw [hc] at h
      exact Except.noConfusion h
  | some .null | some (.bool _) | some (.num _) | some (.list _) | some (.dict _) =>
    exact Except.noConfusion h

theorem parseAffixAspectFields_ok {nameCheck : String → Except String String}
    {kvs : List (String × Doc)} {m : AffixAspectFilterModel}
    (h : parseAffixAspectFields nameCheck kvs = .ok m) :
    ∃ nm v c,
      parseNameField nameCheck (dlookup kvs "name") = .ok nm ∧
      parseValueField (dlookup kvs "value") = .ok v ∧
      parseComparisonField (dlookup kvs "comparison") = .ok c ∧
      m = { name := nm, value := v.1, comparison := c.1,
            value_set := v.2, comparison_set := c.2 } := by
  unfold parseAffixAspectFields at h
  by_cases hk : keysAllowed kvs ["name", "value", "comparison"] = false
  · rw [if_pos hk] at h
    exact Except.noConfusion h
  · rw [if_neg hk] at h
    obtain ⟨nm, hnm, h⟩ := ebind_ok h
    obtain ⟨v, hv, h⟩ := ebind_ok h
    obtain ⟨c, hc, h⟩ := ebind_ok h
    cases h
    exact ⟨nm, v, c, hnm, hv, hc, rfl⟩

/-- Reparsing an AffixAspectFilterModel from its exclude-unset dump: the
field facts guaranteed by a successful parse reproduce the model exactly. -/
theorem parseAffixAspectFields_dump {nameCheck : String → Except String String}
    {m : AffixAspectFilterModel}
    (hname : nameCheck m.name = .ok m.name)
    (hval : m.value_set = false → m.value = none)
    (hcmp : m.comparison_set = false → m.comparison = .larger) :
    parseAffixAspectFields nameCheck m.dump = .ok m := by
  obtain ⟨nm, v, c, vset, cset⟩ := m
  unfold parseAffixAspectFields AffixAspectFilterModel.dump
  cases vset <;> cases cset <;>
    simp_all [parseNameField, parseValueField, parseComparisonField, dumpOptInt,
      optField, dlookup, keysAllowed] <;>
    try cases v <;> simp_all [parseValueField, dumpOptInt]

/-- The affix existence check returns its input unchanged, so it is stable
under reparse. -/
theorem affix_name_check_stable {loader : Dataloader} {s t : String}
    (h : AffixFilterModel.name_must_exist loader s = .ok t) :
    AffixFilterModel.name_must_exist loader t = .ok t := by
  unfold AffixFilterModel.name_must_exist at h ⊢
  by_cases hm : s ∈ loader.affix_dict
  · rw [if_pos hm] at h
    cases h
    rw [if_pos hm]
  · rw [if_neg hm] at h
    exact Except.noConfusion h

theorem aspect_name_check_stable {loader : Dataloader} {s t : String}
    (h : AspectUniqueFilterModel.name_must_exist loader s = .ok t) :
    AspectUniqueFilterModel.name_must_exist loader t = .ok t := by
  unfold AspectUniqueFilterModel.name_must_exist at h ⊢
  by_cases hm : s ∈ loader.aspect_unique_dict
  · rw [if_pos hm] at h
    cases h
    rw [if_pos hm]
  · rw [if_neg hm] at h
    exact Except.noConfusion h

theorem parseAffixFilterModel_roundtrip (loader : Dataloader) {d : Doc}
    {m : AffixAspectFilterModel} (h : parseAffixFilterModel loader d = .ok m) :
    parseAffixFilterModel loader (.dict m.dump) = .ok m := by
  obtain ⟨kvs, hkvs, hf⟩ := ebind_ok h
  obtain ⟨nm, v, c, hnm, hv, hc, hm⟩ := parseAffixAspectFields_ok hf
  obtain ⟨s, hs, hcheck⟩ := parseNameField_ok hnm
  subst hm
  show parseAffixAspectFields (AffixFilterModel.name_must_exist loader) _ = _
  exact parseAffixAspectFields_dump (affix_name_check_stable hcheck)
    (parseValueField_unset hv) (parseComparisonField_unset hc)

theorem parseAspectUniqueFilterModel_roundtrip (loader : Dataloader) {d : Doc}
    {m : AffixAspectFilterModel} (h : parseAspectUniqueFilterModel loader d = .ok m) :
    parseAspectUniqueFilterModel loader (.dict m.dump) = .ok m := by
  obtain ⟨kvs, hkvs, hf⟩ := ebind_ok h
  obtain ⟨nm, v, c, hnm, hv, hc, hm⟩ := parseAffixAspectFields_ok hf
  obtain ⟨s, hs, hcheck⟩ := parseNameField_ok hnm
  subst hm
  show parseAffixAspectFields (AspectUniqueFilterModel.name_must_exist loader) _ = _
  exact parseAffixAspectFields_dump (aspect_name_check_stable hcheck)
    (parseValueField_unset hv) (parseComparisonField_unset hc)

/-! ## Round trip for AffixFilterCountModel -/

theorem check_gtz_stable {v n : Int} (h : check_greater_than_zero v = .ok n) :
    check_greater_than_zero n = .ok n := by
  obtain ⟨he, hv⟩ := check_gtz_ok h
  subst he
  unfold check_greater_than_zero
  rw [if_neg (not_lt.mpr hv)]

theorem min_greater_affix_in_range_stable {v n : Int}
    (h : min_greater_affix_in_range v = .ok n) : min_greater_affix_in_range n = .ok n := by
  obtain ⟨he, h0, h3⟩ := min_greater_affix_in_range_ok h
  subst he
  unfold min_greater_affix_in_range
  rw [if_pos ⟨h0, h3⟩]

theorem min_max_tier_in_range_stable {v n : Int}
    (h : min_max_tier_in_range v = .ok n) : min_max_tier_in_range n = .ok n := by
  obtain ⟨he, h0, h100⟩ := min_max_tier_in_range_ok h
  subst he
  unfold min_max_tier_in_range
  rw [if_pos ⟨h0, h100⟩]

theorem parseAffixList_ok {loader : Dataloader} {o : Option Doc}
    {p : List AffixAspectFilterModel × Bool} (h : parseAffixList loader o = .ok p) :
    (o = none ∧ p = ([], false)) ∨
      (∃ xs, o = some (.list xs) ∧ mapE (parseAffixFilterModel loader) xs = .ok p.1 ∧
        p.2 = true) := by
  match o with
  | none => cases h; exact .inl ⟨rfl, rfl⟩
  | some (.list xs) =>
    obtain ⟨l, hl, h⟩ := ebind_ok h
    cases h
    exact .inr ⟨xs, rfl, hl, rfl⟩
  | some .null | some (.bool _) | some (.num _) | some (.str _) | some (.dict _) =>
    exact Except.noConfusion h

theorem parseAffixList_dump {loader : Dataloader} {l : List AffixAspectFilterModel} {st : Bool}
    (helem : ∀ a ∈ l, parseAffixFilterModel loader (.dict a.dump) = .ok a)
    (hunset : st = false → l = []) :
    parseAffixList loader
      (cond st (some (.list (l.map fun a => .dict a.dump))) none) = .ok (l, st) := by
  cases st
  · rw [hunset rfl]
    rfl
  · show ebind (mapE (parseAffixFilterModel loader) (l.map fun a => Doc.dict a.dump)) _ = _
    rw [mapE_of_forall helem]
    rfl

/-- Reparsing an optional integer field from its exclude-unset dump: a set
value that passes its validator is recovered, an absent key yields the
declared default. -/
theorem parseIntWith_dump {check : Int → Except String Int} {dflt v : Int} {st : Bool}
    (hset : st = true → check v = .ok v) :
    parseIntWith check dflt (cond st (some (.num v)) none) = .ok (cond st v dflt, st) := by
  cases st
  · rfl
  · show ebind (check v) _ = _
    rw [hset rfl]
    rfl

theorem mv_reparse_both_unset {cnt : List AffixAspectFilterModel} {mx mn : Int}
    {mg : Int} {cs gs : Bool} (hne : cnt.isEmpty = false)
    (h1 : mn = (cnt.length : Int)) (h2 : mx = (cnt.length : Int)) :
    AffixFilterCountModel.model_validator ⟨cnt, sys_maxsize, 0, mg, cs, false, false, gs⟩ =
      .ok ⟨cnt, mx, mn, mg, cs, false, false, gs⟩ := by
  subst h1 h2
  simp [AffixFilterCountModel.model_validator, hne]

theorem mv_reparse_min_unset {cnt : List AffixAspectFilterModel} {mx mn : Int}
    {mg : Int} {cs gs : Bool} (hne : cnt.isEmpty = false)
    (h1 : mn = 0) (hle0 : 0 ≤ mx) :
    AffixFilterCountModel.model_validator ⟨cnt, mx, 0, mg, cs, true, false, gs⟩ =
      .ok ⟨cnt, mx, mn, mg, cs, true, false, gs⟩ := by
  subst h1
  simp [AffixFilterCountModel.model_validator, hne, not_lt.mpr hle0]

theorem mv_reparse_max_unset {cnt : List AffixAspectFilterModel} {mx mn : Int}
    {mg : Int} {cs gs : Bool} (hne : cnt.isEmpty = false)
    (h1 : mx = sys_maxsize) (hle0 : mn ≤ sys_maxsize) :
    AffixFilterCountModel.model_validator ⟨cnt, sys_maxsize, mn, mg, cs, false, true, gs⟩ =
      .ok ⟨cnt, mx, mn, mg, cs, false, true, gs⟩ := by
  subst h1
  simp [AffixFilterCountModel.model_validator, hne, not_lt.mpr hle0]

theorem mv_reparse_both_set {cnt : List AffixAspectFilterModel} {mx mn : Int}
    {mg : Int} {cs gs : Bool} (hne : cnt.isEmpty = false) (hle : mn ≤ mx) :
    AffixFilterCountModel.model_validator ⟨cnt, mx, mn, mg, cs, true, true, gs⟩ =
      .ok ⟨cnt, mx, mn, mg, cs, true, true, gs⟩ := by
  simp [AffixFilterCountModel.model_validator, hne, not_lt.mpr hle]

/-- Running the mode-after validator on the record rebuilt from an
exclude-unset dump of a validated model yields the model back. -/
theorem AffixFilterCountModel.model_validator_reparse {m : AffixFilterCountModel}
    (hne : m.count.isEmpty = false)
    (hle : m.minCount ≤ m.maxCount)
    (hinfer : m.minCount_set = false → m.maxCount_set = false →
      m.minCount = m.count.length ∧ m.maxCount = m.count.length)
    (hmin0 : m.minCount_set = false → m.maxCount_set = true → m.minCount = 0)
    (hmax0 : m.maxCount_set = false → m.minCount_set = true → m.maxCount = sys_maxsize) :
    AffixFilterCountModel.model_validator
      { m with minCount := cond m.minCount_set m.minCount 0,
               maxCount := cond m.maxCount_set m.maxCount sys_maxsize } = .ok m := by
  obtain ⟨cnt, mx, mn, mg, cs, xs, ns, gs⟩ := m
  replace hne : cnt.isEmpty = false := hne
  replace hle : mn ≤ mx := hle
  replace hinfer : ns = false → xs = false →
    mn = (cnt.length : Int) ∧ mx = (cnt.length : Int) := hinfer
  replace hmin0 : ns = false → xs = true → mn = 0 := hmin0
  replace hmax0 : xs = false → ns = true → mx = sys_maxsize := hmax0
  cases ns <;> cases xs
  · exact mv_reparse_both_unset hne (hinfer rfl rfl).1 (hinfer rfl rfl).2
  · have h1 := hmin0 rfl rfl
    exact mv_reparse_min_unset hne h1 (h1 ▸ hle)
  · have h1 := hmax0 rfl rfl
    exact mv_reparse_max_unset hne h1 (h1 ▸ hle)
  · exact mv_reparse_both_set hne hle

theorem count_dump_keysAllowed (m : AffixFilterCountModel) :
    keysAllowed m.dump ["count", "maxCount", "minCount", "minGreaterAffixCount"] = true := by
  simp [AffixFilterCountModel.dump]

theorem count_dump_count (m : AffixFilterCountModel) :
    dlookup m.dump "count" =
      cond m.count_set (some (.list (m.count.map fun a => Doc.dict a.dump))) none := by
  cases h : m.count_set <;> simp [AffixFilterCountModel.dump, h]

theorem count_dump_maxCount (m : AffixFilterCountModel) :
    dlookup m.dump "maxCount" = cond m.maxCount_set (some (.num m.maxCount)) none := by
  cases h : m.maxCount_set <;> simp [AffixFilterCountModel.dump, h]

theorem count_dump_minCount (m : AffixFilterCountModel) :
    dlookup m.dump "minCount" = cond m.minCount_set (some (.num m.minCount)) none := by
  cases h : m.minCount_set <;> simp [AffixFilterCountModel.dump, h]

theorem count_dump_minGreaterAffixCount (m : AffixFilterCountModel) :
    dlookup m.dump "minGreaterAffixCount" =
      cond m.minGreaterAffixCount_set (some (.num m.minGreaterAffixCount)) none := by
  cases h : m.minGreaterAffixCount_set <;> simp [AffixFilterCountModel.dump, h]

theorem parseAffixFilterCountModel_roundtrip (loader : Dataloader) {d : Doc}
    {m : AffixFilterCountModel} (h : parseAffixFilterCountModel loader d = .ok m) :
    parseAffixFilterCountModel loader (.dict m.dump) = .ok m := by
  cases d with
  | dict kvs =>
    obtain ⟨cnt, mx, mn, mg, hk, hcnt, hmx, hmn, hmg, hmv⟩ := parseAffixFilterCountModel_ok h
    obtain ⟨hcount, hne, hle, hmgv, hcs, hxs, hns, hgs, hinf, hninf⟩ :=
      AffixFilterCountModel.model_validator_ok hmv
    have helem : ∀ a ∈ m.count, parseAffixFilterModel loader (.dict a.dump) = .ok a := by
      intro a ha
      rw [hcount] at ha
      rcases parseAffixList_ok hcnt with ⟨_, hp⟩ | ⟨xs2, _, hmap, _⟩
      · rw [hp] at ha
        cases ha
      · obtain ⟨x, _, hx⟩ := mapE_ok_mem hmap a ha
        exact parseAffixFilterModel_roundtrip loader hx
    have hcuns : m.count_set = false → m.count = [] := by
      intro hf
      rcases parseAffixList_ok hcnt with ⟨_, hp⟩ | ⟨xs2, _, _, hst⟩
      · rw [hcount, hp]
      · rw [hcs, hst] at hf
        exact Bool.noConfusion hf
    have hminset : m.minCount_set = true → check_greater_than_zero m.minCount = .ok m.minCount := by
      intro ht
      have hnb : ¬(mn.2 = false ∧ mx.2 = false) := by
        rintro ⟨hc, _⟩
        rw [hns, hc] at ht
        exact Bool.noConfusion ht
      rcases parseIntWith_ok hmn with ⟨_, hp⟩ | ⟨v, _, hch, _⟩
      · rw [hns, hp] at ht
        exact Bool.noConfusion ht
      · rw [(hninf hnb).1]
        exact check_gtz_stable hch
    have hmaxset : m.maxCount_set = true → check_greater_than_zero m.maxCount = .ok m.maxCount := by
      intro ht
      have hnb : ¬(mn.2 = false ∧ mx.2 = false) := by
        rintro ⟨_, hc⟩
        rw [hxs, hc] at ht
        exact Bool.noConfusion ht
      rcases parseIntWith_ok hmx with ⟨_, hp⟩ | ⟨v, _, hch, _⟩
      · rw [hxs, hp] at ht
        exact Bool.noConfusion ht
      · rw [(hninf hnb).2]
        exact check_gtz_stable hch
    have hmgset : m.minGreaterAffixCount_set = true →
        check_greater_than_zero m.minGreaterAffixCount = .ok m.minGreaterAffixCount := by
      intro ht
      rcases parseIntWith_ok hmg with ⟨_, hp⟩ | ⟨v, _, hch, _⟩
      · rw [hgs, hp] at ht
        exact Bool.noConfusion ht
      · rw [hmgv]
        exact check_gtz_stable hch
    have hmguns : m.minGreaterAffixCount_set = false → m.minGreaterAffixCount = 0 := by
      intro hf
      rcases parseIntWith_ok hmg with ⟨_, hp⟩ | ⟨v, _, _, hst⟩
      · rw [hmgv, hp]
      · rw [hgs, hst] at hf
        exact Bool.noConfusion hf
    have hinfer : m.minCount_set = false → m.maxCount_set = false →
        m.minCount = m.count.length ∧ m.maxCount = m.count.length := by
      intro h1 h2
      rw [hcount]
      refine hinf ⟨?_, ?_⟩
      · rw [← hns]
        exact h1
      · rw [← hxs]
        exact h2
    have hmin0 : m.minCount_set = false → m.maxCount_set = true → m.minCount = 0 := by
      intro h1 h2
      have hnb : ¬(mn.2 = false ∧ mx.2 = false) := by
        rintro ⟨_, hc⟩
        rw [hxs, hc] at h2
        exact Bool.noConfusion h2
      rcases parseIntWith_ok hmn with ⟨_, hp⟩ | ⟨v, _, _, hst⟩
      · rw [(hninf hnb).1, hp]
      · rw [hns, hst] at h1
        exact Bool.noConfusion h1
    have hmax0 : m.maxCount_set = false → m.minCount_set = true → m.maxCount = sys_maxsize := by
      intro h1 h2
      have hnb : ¬(mn.2 = false ∧ mx.2 = false) := by
        rintro ⟨hc, _⟩
        rw [hns, hc] at h2
        exact Bool.noConfusion h2
      rcases parseIntWith_ok hmx with ⟨_, hp⟩ | ⟨v, _, _, hst⟩
      · rw [(hninf hnb).2, hp]
      · rw [hxs, hst] at h1
        exact Bool.noConfusion h1
    have hmgif : cond m.minGreaterAffixCount_set m.minGreaterAffixCount 0 =
        m.minGreaterAffixCount := by
      cases hgg : m.minGreaterAffixCount_set
      · rw [hmguns hgg]
        rfl
      · rfl
    have hka : ¬(keysAllowed (AffixFilterCountModel.dump m)
        ["count", "maxCount", "minCount", "minGreaterAffixCount"] = false) := by
      rw [count_dump_keysAllowed]
      exact fun hc => Bool.noConfusion hc
    unfold parseAffixFilterCountModel
    dsimp only
    rw [if_neg hka, count_dump_count, parseAffixList_dump helem hcuns]
    simp only [ebind_ok_left]
    rw [count_dump_maxCount, parseIntWith_dump hmaxset]
    simp only [ebind_ok_left]
    rw [count_dump_minCount, parseIntWith_dump hminset]
    simp only [ebind_ok_left]
    rw [count_dump_minGreaterAffixCount, parseIntWith_dump hmgset]
    simp only [ebind_ok_left]
    rw [hmgif]
    exact AffixFilterCountModel.model_validator_reparse hne hle hinfer hmin0 hmax0
  | null => exact Except.noConfusion h
  | bool b => exact Except.noConfusion h
  | num n => exact Except.noConfusion h
  | str s => exact Except.noConfusion h
  | list xs => exact Except.noConfusion h

/-! ## Round trip for ItemFilterModel -/

theorem parseCountList_ok {loader : Dataloader} {o : Option Doc}
    {p : List AffixFilterCountModel × Bool} (h : parseCountList loader o = .ok p) :
    (o = none ∧ p = ([], false)) ∨
      (∃ xs, o = some (.list xs) ∧ mapE (parseAffixFilterCountModel loader) xs = .ok p.1 ∧
        p.2 = true) := by
  match o with
  | none => cases h; exact .inl ⟨rfl, rfl⟩
  | some (.list xs) =>
    obtain ⟨l, hl, h⟩ := ebind_ok h
    cases h
    exact .inr ⟨xs, rfl, hl, rfl⟩
  | some .null | some (.bool _) | some (.num _) | some (.str _) | some (.dict _) =>
    exact Except.noConfusion h

theorem parseCountList_dump {loader : Dataloader} {l : List AffixFilterCountModel} {st : Bool}
    (helem : ∀ p ∈ l, parseAffixFilterCountModel loader (.dict p.dump) = .ok p)
    (hunset : st = false → l = []) :
    parseCountList loader
      (cond st (some (.list (l.map fun p => .dict p.dump))) none) = .ok (l, st) := by
  cases st
  · rw [hunset rfl]
    rfl
  · show ebind (mapE (parseAffixFilterCountModel loader) (l.map fun p => Doc.dict p.dump)) _ = _
    rw [mapE_of_forall helem]
    rfl

theorem parseItemTypeList_ok {itemTypes : List String} {o : Option Doc}
    {p : List String × Bool} (h : parseItemTypeList itemTypes o = .ok p) :
    (p.2 = false → p.1 = []) ∧ ∀ s ∈ p.1, s ∈ itemTypes := by
  match o with
  | none =>
    cases h
    exact ⟨fun _ => rfl, fun s hs => absurd hs (List.not_mem_nil s)⟩
  | some d =>
    have hcheck : ∀ (x : Doc) (y : String),
        (match x with
         | Doc.str s =>
           if s ∈ itemTypes then Except.ok s
           else Except.error "input should be a valid ItemType"
         | _ => Except.error "input should be a valid ItemType") = Except.ok y →
        y ∈ itemTypes := by
      intro x y hx
      match x with
      | Doc.str s =>
        by_cases hm : s ∈ itemTypes
        · rw [show (match Doc.str s with
            | Doc.str s =>
              if s ∈ itemTypes then Except.ok s
              else Except.error "input should be a valid ItemType"
            | _ => Except.error "input should be a valid ItemType") =
              (if s ∈ itemTypes then Except.ok s
               else Except.error "input should be a valid ItemType") from rfl,
            if_pos hm] at hx
          cases hx
          exact hm
        · rw [show (match Doc.str s with
            | Doc.str s =>
              if s ∈ itemTypes then Except.ok s
              else Except.error "input should be a valid ItemType"
            | _ => Except.error "input should be a valid ItemType") =
              (if s ∈ itemTypes then Except.ok s
               else Except.error "input should be a valid ItemType") from rfl,
            if_neg hm] at hx
          exact Except.noConfusion hx
      | Doc.null | Doc.bool _ | Doc.num _ | Doc.list _ | Doc.dict _ =>
        exact Except.noConfusion hx
    rw [show parseItemTypeList itemTypes (some d) =
      (match _parse_item_type d with
       | .list xs =>
         ebind (mapE (fun x =>
           match x with
           | Doc.str s =>
             if s ∈ itemTypes then Except.ok s
             else Except.error "input should be a valid ItemType"
           | _ => Except.error "input should be a valid ItemType") xs) fun l =>
         .ok (l, true)
       | _ => .error "input should be a valid list") from rfl] at h
    cases hd : _parse_item_type d with
    | list xs =>
      rw [hd] at h
      obtain ⟨l, hl, h⟩ := ebind_ok h
      cases h
      refine ⟨fun hc => Bool.noConfusion hc, ?_⟩
      intro s hs
      obtain ⟨x, _, hx⟩ := mapE_ok_mem hl s hs
      exact hcheck x s hx
    | null => rw [hd] at h; exact Except.noConfusion h
    | bool b => rw [hd] at h; exact Except.noConfusion h
    | num n => rw [hd] at h; exact Except.noConfusion h
    | str s => rw [hd] at h; exact Except.noConfusion h
    | dict kvs => rw [hd] at h; exact Except.noConfusion h

theorem parseItemTypeList_dump {itemTypes : List String} {l : List String} {st : Bool}
    (hmem : ∀ s ∈ l, s ∈ itemTypes) (hunset : st = false → l = []) :
    parseItemTypeList itemTypes (cond st (some (.list (l.map Doc.str))) none) = .ok (l, st) := by
  cases st
  · rw [hunset rfl]
    rfl
  · show ebind (mapE (fun x =>
      match x with
      | Doc.str s =>
        if s ∈ itemTypes then Except.ok s
        else Except.error "input should be a valid ItemType"
      | _ => Except.error "input should be a valid ItemType") (l.map Doc.str)) _ = _
    rw [mapE_of_forall (fun s hs => by
      show (if s ∈ itemTypes then Except.ok s
            else Except.error "input should be a valid ItemType") = Except.ok s
      rw [if_pos (hmem s hs)])]
    rfl

theorem item_dump_keysAllowed (m : ItemFilterModel) :
    keysAllowed m.dump
      ["affixPool", "inherentPool", "itemType", "minGreaterAffixCount", "minPower"] = true := by
  simp [ItemFilterModel.dump]

theorem item_dump_affixPool (m : ItemFilterModel) :
    dlookup m.dump "affixPool" =
      cond m.affixPool_set (some (.list (m.affixPool.map fun p => Doc.dict p.dump))) none := by
  cases h : m.affixPool_set <;> simp [ItemFilterModel.dump, h]

theorem item_dump_inherentPool (m : ItemFilterModel) :
    dlookup m.dump "inherentPool" =
      cond m.inherentPool_set (some (.list (m.inherentPool.map fun p => Doc.dict p.dump))) none := by
  cases h : m.inherentPool_set <;> simp [ItemFilterModel.dump, h]

theorem item_dump_itemType (m : ItemFilterModel) :
    dlookup m.dump "itemType" =
      cond m.itemType_set (some (.list (m.itemType.map Doc.str))) none := by
  cases h : m.itemType_set <;> simp [ItemFilterModel.dump, h]

theorem item_dump_minGreaterAffixCount (m : ItemFilterModel) :
    dlookup m.dump "minGreaterAffixCount" =
      cond m.minGreaterAffixCount_set (some (.num m.minGreaterAffixCount)) none := by
  cases h : m.minGreaterAffixCount_set <;> simp [ItemFilterModel.dump, h]

theorem item_dump_minPower (m : ItemFilterModel) :
    dlookup m.dump "minPower" = cond m.minPower_set (some (.num m.minPower)) none := by
  cases h : m.minPower_set <;> simp [ItemFilterModel.dump, h]

theorem parseItemFilterModel_roundtrip (loader : Dataloader) (itemTypes : List String)
    {d : Doc} {m : ItemFilterModel} (h : parseItemFilterModel loader itemTypes d = .ok m) :
    parseItemFilterModel loader itemTypes (.dict m.dump) = .ok m := by
  cases d with
  | dict kvs =>
    obtain ⟨ap, ip, it, mg, mp, hk, hap, hip, hit, hmg, hmp, hm⟩ := parseItemFilterModel_ok h
    subst hm
    have hapelem : ∀ p ∈ ap.1, parseAffixFilterCountModel loader (.dict p.dump) = .ok p := by
      intro p hp
      rcases parseCountList_ok hap with ⟨_, hpp⟩ | ⟨xs2, _, hmap, _⟩
      · rw [hpp] at hp
        cases hp
      · obtain ⟨x, _, hx⟩ := mapE_ok_mem hmap p hp
        exact parseAffixFilterCountModel_roundtrip loader hx
    have hapuns : ap.2 = false → ap.1 = [] := by
      intro hf
      rcases parseCountList_ok hap with ⟨_, hpp⟩ | ⟨xs2, _, _, hst⟩
      · rw [hpp]
      · rw [hst] at hf
        exact Bool.noConfusion hf
    have hipelem : ∀ p ∈ ip.1, parseAffixFilterCountModel loader (.dict p.dump) = .ok p := by
      intro p hp
      rcases parseCountList_ok hip with ⟨_, hpp⟩ | ⟨xs2, _, hmap, _⟩
      · rw [hpp] at hp
        cases hp
      · obtain ⟨x, _, hx⟩ := mapE_ok_mem hmap p hp
        exact parseAffixFilterCountModel_roundtrip loader hx
    have hipuns : ip.2 = false → ip.1 = [] := by
      intro hf
      rcases parseCountList_ok hip with ⟨_, hpp⟩ | ⟨xs2, _, _, hst⟩
      · rw [hpp]
      · rw [hst] at hf
        exact Bool.noConfusion hf
    obtain ⟨hituns, hitmem⟩ := parseItemTypeList_ok hit
    have hmgset : mg.2 = true → min_greater_affix_in_range mg.1 = .ok mg.1 := by
      intro ht
      rcases parseIntWith_ok hmg with ⟨_, hpp⟩ | ⟨v, _, hch, _⟩
      · rw [hpp] at ht
        exact Bool.noConfusion ht
      · exact min_greater_affix_in_range_stable hch
    have hmgif : cond mg.2 mg.1 0 = mg.1 := by
      cases hgg : mg.2
      · rcases parseIntWith_ok hmg with ⟨_, hpp⟩ | ⟨v, _, _, hst⟩
        · rw [hpp]
          rfl
        · rw [hst] at hgg
          exact Bool.noConfusion hgg
      · rfl
    have hmpset : mp.2 = true → check_greater_than_zero mp.1 = .ok mp.1 := by
      intro ht
      rcases parseIntWith_ok hmp with ⟨_, hpp⟩ | ⟨v, _, hch, _⟩
      · rw [hpp] at ht
        exact Bool.noConfusion ht
      · exact check_gtz_stable hch
    have hmpif : cond mp.2 mp.1 0 = mp.1 := by
      cases hgg : mp.2
      · rcases parseIntWith_ok hmp with ⟨_, hpp⟩ | ⟨v, _, _, hst⟩
        · rw [hpp]
          rfl
        · rw [hst] at hgg
          exact Bool.noConfusion hgg
      · rfl
    have hka : ¬(keysAllowed (ItemFilterModel.dump
        { affixPool := ap.1, inherentPool := ip.1, itemType := it.1,
          minGreaterAffixCount := mg.1, minPower := mp.1,
          affixPool_set := ap.2, inherentPool_set := ip.2, itemType_set := it.2,
          minGreaterAffixCount_set := mg.2, minPower_set := mp.2 })
        ["affixPool", "inherentPool", "itemType", "minGreaterAffixCount", "minPower"] = false) := by
      rw [item_dump_keysAllowed]
      exact fun hc => Bool.noConfusion hc
    unfold parseItemFilterModel
    dsimp only
    rw [if_neg hka, item_dump_affixPool, parseCountList_dump hapelem hapuns]
    simp only [ebind_ok_left]
    rw [item_dump_inherentPool, parseCountList_dump hipelem hipuns]
    simp only [ebind_ok_left]
    rw [item_dump_itemType, parseItemTypeList_dump hitmem hituns]
    simp only [ebind_ok_left]
    rw [item_dump_minGreaterAffixCount, parseIntWith_dump hmgset]
    simp only [ebind_ok_left]
    rw [item_dump_minPower, parseIntWith_dump hmpset]
    simp only [ebind_ok_left]
    rw [hmgif, hmpif]
  | null => exact Except.noConfusion h
  | bool b => exact Except.noConfusion h
  | num n => exact Except.noConfusion h
  | str s => exact Except.noConfusion h
  | list xs => exact Except.noConfusion h

/-! ## Round trip for SigilConditionModel and SigilFilterModel -/

theorem SigilConditionModel.name_must_exist_id {loader : Dataloader}
    {names out : List String} (h : SigilConditionModel.name_must_exist loader names = .ok out) :
    out = names := by
  unfold SigilConditionModel.name_must_exist at h
  dsimp only at h
  by_cases he : (names.filter fun n => decide (n ∉ loader.affix_sigil_dict)).isEmpty = true
  · rw [if_pos he] at h
    cases h
    rfl
  · rw [if_neg he] at h
    exact Except.noConfusion h

theorem parseSigilCondListField_ok {loader : Dataloader} {o : Option Doc}
    {p : List String × Bool} (h : parseSigilCondListField loader o = .ok p) :
    (p.2 = false → p.1 = []) ∧
      SigilConditionModel.name_must_exist loader p.1 = .ok p.1 := by
  match o with
  | none =>
    cases h
    exact ⟨fun _ => rfl, rfl⟩
  | some (.list xs) =>
    obtain ⟨l, hl, h⟩ := ebind_ok h
    obtain ⟨l2, hl2, h⟩ := ebind_ok h
    cases h
    have hid := SigilConditionModel.name_must_exist_id hl2
    subst hid
    exact ⟨fun hc => Bool.noConfusion hc, hl2⟩
  | some .null | some (.bool _) | some (.num _) | some (.str _) | some (.dict _) =>
    exact Except.noConfusion h

theorem parseSigilCondListField_dump {loader : Dataloader} {l : List String} {st : Bool}
    (hok : SigilConditionModel.name_must_exist loader l = .ok l)
    (hunset : st = false → l = []) :
    parseSigilCondListField loader (cond st (some (.list (l.map Doc.str))) none) = .ok (l, st) := by
  cases st
  · rw [hunset rfl]
    rfl
  · show ebind (mapE (fun x =>
      match x with
      | Doc.str c => Except.ok c
      | _ => Except.error "condition: input should be a valid string") (l.map Doc.str)) _ = _
    rw [@mapE_of_forall Doc String (fun x =>
      match x with
      | Doc.str c => Except.ok c
      | _ => Except.error "condition: input should be a valid string") Doc.str l
      (fun c _ => rfl)]
    simp only [ebind_ok_left]
    rw [hok]
    rfl

theorem parseSigilConditionModel_ok {loader : Dataloader} {d : Doc} {m : SigilConditionModel}
    (h : parseSigilConditionModel loader d = .ok m) :
    SigilConditionModel.name_must_exist loader [m.name] = .ok [m.name] ∧
      (m.condition_set = false → m.condition = []) ∧
      SigilConditionModel.name_must_exist loader m.condition = .ok m.condition := by
  obtain ⟨kvs, hkvs, h⟩ := ebind_ok h
  by_cases hk : keysAllowed kvs ["name", "condition"] = false
  · rw [if_pos hk] at h
    exact Except.noConfusion h
  · rw [if_neg hk] at h
    obtain ⟨nm, hnm, h⟩ := ebind_ok h
    obtain ⟨cond, hcond, h⟩ := ebind_ok h
    cases h
    obtain ⟨s, _, hcheck⟩ := parseNameField_ok hnm
    obtain ⟨l, hl, hs⟩ := ebind_ok hcheck
    cases hs
    have hid := SigilConditionModel.name_must_exist_id hl
    subst hid
    obtain ⟨huns, hcok⟩ := parseSigilCondListField_ok hcond
    exact ⟨hl, huns, hcok⟩

theorem sigilcond_dump_name (m : SigilConditionModel) :
    dlookup m.dump "name" = some (.str m.name) := by
  simp [SigilConditionModel.dump]

theorem sigilcond_dump_condition (m : SigilConditionModel) :
    dlookup m.dump "condition" =
      cond m.condition_set (some (.list (m.condition.map Doc.str))) none := by
  cases h : m.condition_set <;> simp [SigilConditionModel.dump, h]

theorem sigilcond_dump_keysAllowed (m : SigilConditionModel) :
    keysAllowed m.dump ["name", "condition"] = true := by
  simp [SigilConditionModel.dump]

theorem parseSigilConditionModel_roundtrip (loader : Dataloader) {d : Doc}
    {m : SigilConditionModel} (h : parseSigilConditionModel loader d = .ok m) :
    parseSigilConditionModel loader (.dict m.dump) = .ok m := by
  obtain ⟨hname, huns, hcok⟩ := parseSigilConditionModel_ok h
  show (if keysAllowed m.dump ["name", "condition"] = false then
      (.error "extra inputs are not permitted" : Except String SigilConditionModel)
    else
      ebind (parseNameField
        (fun s => ebind (SigilConditionModel.name_must_exist loader [s]) fun _ => .ok s)
        (dlookup m.dump "name")) fun nm =>
      ebind (parseSigilCondListField loader (dlookup m.dump "condition")) fun cond =>
      .ok { name := nm, condition := cond.1, condition_set := cond.2 }) = .ok m
  rw [if_neg (by rw [sigilcond_dump_keysAllowed]; exact fun hc => Bool.noConfusion hc)]
  rw [sigilcond_dump_name]
  show ebind (ebind (SigilConditionModel.name_must_exist loader [m.name]) fun _ =>
    Except.ok m.name) _ = _
  rw [hname]
  simp only [ebind_ok_left]
  rw [sigilcond_dump_condition, parseSigilCondListField_dump hcok huns]
  rfl

theorem SigilFilterModel.data_integrity_fixpoint {m : SigilFilterModel}
    (hdisj : (m.blacklist.filter fun item => m.whitelist.any fun w => item.pyEq w) = [])
    (hle : m.minTier ≤ m.maxTier) :
    SigilFilterModel.data_integrity m = .ok m := by
  unfold SigilFilterModel.data_integrity
  dsimp only
  rw [hdisj]
  rw [if_neg (by exact fun hc => Bool.noConfusion hc)]
  rw [if_neg (not_lt.mpr hle)]

theorem parseSigilList_ok {loader : Dataloader} {o : Option Doc}
    {p : List SigilConditionModel × Bool} (h : parseSigilList loader o = .ok p) :
    (p.2 = false → p.1 = []) ∧
      ∀ c ∈ p.1, ∃ x, parseSigilConditionModel loader x = .ok c := by
  match o with
  | none =>
    cases h
    exact ⟨fun _ => rfl, fun c hc => absurd hc (List.not_mem_nil c)⟩
  | some (.list xs) =>
    obtain ⟨l, hl, h⟩ := ebind_ok h
    cases h
    refine ⟨fun hc => Bool.noConfusion hc, ?_⟩
    intro c hc
    obtain ⟨x, _, hx⟩ := mapE_ok_mem hl c hc
    exact ⟨x, hx⟩
  | some .null | some (.bool _) | some (.num _) | some (.str _) | some (.dict _) =>
    exact Except.noConfusion h

theorem parseSigilList_dump {loader : Dataloader} {l : List SigilConditionModel} {st : Bool}
    (helem : ∀ c ∈ l, parseSigilConditionModel loader (.dict c.dump) = .ok c)
    (hunset : st = false → l = []) :
    parseSigilList loader
      (cond st (some (.list (l.map fun c => .dict c.dump))) none) = .ok (l, st) := by
  cases st
  · rw [hunset rfl]
    rfl
  · show ebind (mapE (parseSigilConditionModel loader) (l.map fun c => Doc.dict c.dump)) _ = _
    rw [mapE_of_forall helem]
    rfl

theorem parsePriorityField_ok {o : Option Doc} {p : SigilPriority × Bool}
    (h : parsePriorityField o = .ok p) : p.2 = false → p.1 = .blacklist := by
  match o with
  | none => cases h; exact fun _ => rfl
  | some (.str s) =>
    rw [show parsePriorityField (some (.str s)) =
      (match SigilPriority.ofStr s with
       | some pr => .ok (pr, true)
       | none => .error "priority: input should be blacklist or whitelist") from rfl] at h
    match hc : SigilPriority.ofStr s with
    | some pr =>
      rw [hc] at h
      cases h
      exact fun hcon => Bool.noConfusion hcon
    | none =>
      rw [hc] at h
      exact Except.noConfusion h
  | some .null | some (.bool _) | some (.num _) | some (.list _) | some (.dict _) =>
    exact Except.noConfusion h

theorem parsePriorityField_dump {pr : SigilPriority} {st : Bool}
    (hunset : st = false → pr = .blacklist) :
    parsePriorityField (cond st (some (.str pr.toStr)) none) = .ok (pr, st) := by
  cases st
  · rw [hunset rfl]
    rfl
  · show (match SigilPriority.ofStr pr.toStr with
      | some p2 => (Except.ok (p2, true) : Except String (SigilPriority × Bool))
      | none => Except.error "priority: input should be blacklist or whitelist") = .ok (pr, true)
    rw [priority_ofStr_toStr]

theorem sigil_dump_keysAllowed (m : SigilFilterModel) :
    keysAllowed m.dump ["blacklist", "maxTier", "minTier", "priority", "whitelist"] = true := by
  simp [SigilFilterModel.dump]

theorem sigil_dump_blacklist (m : SigilFilterModel) :
    dlookup m.dump "blacklist" =
      cond m.blacklist_set (some (.list (m.blacklist.map fun c => Doc.dict c.dump))) none := by
  cases h : m.blacklist_set <;> simp [SigilFilterModel.dump, h]

theorem sigil_dump_maxTier (m : SigilFilterModel) :
    dlookup m.dump "maxTier" = cond m.maxTier_set (some (.num m.maxTier)) none := by
  cases h : m.maxTier_set <;> simp [SigilFilterModel.dump, h]

theorem sigil_dump_minTier (m : SigilFilterModel) :
    dlookup m.dump "minTier" = cond m.minTier_set (some (.num m.minTier)) none := by
  cases h : m.minTier_set <;> simp [SigilFilterModel.dump, h]

theorem sigil_dump_priority (m : SigilFilterModel) :
    dlookup m.dump "priority" = cond m.priority_set (some (.str m.priority.toStr)) none := by
  cases h : m.priority_set <;> simp [SigilFilterModel.dump, h]

theorem sigil_dump_whitelist (m : SigilFilterModel) :
    dlookup m.dump "whitelist" =
      cond m.whitelist_set (some (.list (m.whitelist.map fun c => Doc.dict c.dump))) none := by
  cases h : m.whitelist_set <;> simp [SigilFilterModel.dump, h]

theorem parseSigilFilterModel_roundtrip (loader : Dataloader) {d : Doc}
    {m : SigilFilterModel} (h : parseSigilFilterModel loader d = .ok m) :
    parseSigilFilterModel loader (.dict m.dump) = .ok m := by
  cases d with
  | dict kvs =>
    obtain ⟨bl, mx, mn, pr, wl, hk, hbl, hmx, hmn, hpr, hwl, hdi⟩ := parseSigilFilterModel_ok h
    obtain ⟨hm, hdisj, hle⟩ := SigilFilterModel.data_integrity_ok hdi
    subst hm
    obtain ⟨hbluns, hblsrc⟩ := parseSigilList_ok hbl
    obtain ⟨hwluns, hwlsrc⟩ := parseSigilList_ok hwl
    have hblelem : ∀ c ∈ bl.1, parseSigilConditionModel loader (.dict c.dump) = .ok c := by
      intro c hc
      obtain ⟨x, hx⟩ := hblsrc c hc
      exact parseSigilConditionModel_roundtrip loader hx
    have hwlelem : ∀ c ∈ wl.1, parseSigilConditionModel loader (.dict c.dump) = .ok c := by
      intro c hc
      obtain ⟨x, hx⟩ := hwlsrc c hc
      exact parseSigilConditionModel_roundtrip loader hx
    have hmxset : mx.2 = true → min_max_tier_in_range mx.1 = .ok mx.1 := by
      intro ht
      rcases parseIntWith_ok hmx with ⟨_, hpp⟩ | ⟨v, _, hch, _⟩
      · rw [hpp] at ht
        exact Bool.noConfusion ht
      · exact min_max_tier_in_range_stable hch
    have hmxif : cond mx.2 mx.1 sys_maxsize = mx.1 := by
      cases hgg : mx.2
      · rcases parseIntWith_ok hmx with ⟨_, hpp⟩ | ⟨v, _, _, hst⟩
        · rw [hpp]
          rfl
        · rw [hst] at hgg
          exact Bool.noConfusion hgg
      · rfl
    have hmnset : mn.2 = true → min_max_tier_in_range mn.1 = .ok mn.1 := by
      intro ht
      rcases parseIntWith_ok hmn with ⟨_, hpp⟩ | ⟨v, _, hch, _⟩
      · rw [hpp] at ht
        exact Bool.noConfusion ht
      · exact min_max_tier_in_range_stable hch
    have hmnif : cond mn.2 mn.1 0 = mn.1 := by
      cases hgg : mn.2
      · rcases parseIntWith_ok hmn with ⟨_, hpp⟩ | ⟨v, _, _, hst⟩
        · rw [hpp]
          rfl
        · rw [hst] at hgg
          exact Bool.noConfusion hgg
      · rfl
    have hpruns : pr.2 = false → pr.1 = .blacklist := parsePriorityField_ok hpr
    have hka : ¬(keysAllowed (SigilFilterModel.dump
        { blacklist := bl.1, maxTier := mx.1, minTier := mn.1, priority := pr.1,
          whitelist := wl.1, blacklist_set := bl.2, maxTier_set := mx.2, minTier_set := mn.2,
          priority_set := pr.2, whitelist_set := wl.2 })
        ["blacklist", "maxTier", "minTier", "priority", "whitelist"] = false) := by
      rw [sigil_dump_keysAllowed]
      exact fun hc => Bool.noConfusion hc
    unfold parseSigilFilterModel
    dsimp only
    rw [if_neg hka, sigil_dump_blacklist, parseSigilList_dump hblelem hbluns]
    simp only [ebind_ok_left]
    rw [sigil_dump_maxTier, parseIntWith_dump hmxset]
    simp only [ebind_ok_left]
    rw [sigil_dump_minTier, parseIntWith_dump hmnset]
    simp only [ebind_ok_left]
    rw [sigil_dump_priority, parsePriorityField_dump hpruns]
    simp only [ebind_ok_left]
    rw [sigil_dump_whitelist, parseSigilList_dump hwlelem hwluns]
    simp only [ebind_ok_left]
    rw [hmxif, hmnif]
    exact SigilFilterModel.data_integrity_fixpoint hdisj hle
  | null => exact Except.noConfusion h
  | bool b => exact Except.noConfusion h
  | num n => exact Except.noConfusion h
  | str s => exact Except.noConfusion h
  | list xs => exact Except.noConfusion h

/-! ## Round trip for UniqueModel -/

theorem parseAspectField_ok {loader : Dataloader} {o : Option Doc}
    {p : Option AffixAspectFilterModel × Bool} (h : parseAspectField loader o = .ok p) :
    (o = none ∧ p = (none, false)) ∨
      (∃ d2 a, o = some d2 ∧ parseAspectUniqueFilterModel loader d2 = .ok a ∧
        p = (some a, true)) := by
  match o with
  | none => cases h; exact .inl ⟨rfl, rfl⟩
  | some d2 =>
    obtain ⟨a, ha, h⟩ := ebind_ok h
    cases h
    exact .inr ⟨d2, a, rfl, ha, rfl⟩

theorem parseAspectField_dump {loader : Dataloader} {asp : Option AffixAspectFilterModel}
    {st : Bool}
    (hset : st = true → ∃ a, asp = some a ∧
      parseAspectUniqueFilterModel loader (.dict a.dump) = .ok a)
    (hunset : st = false → asp = none) :
    parseAspectField loader (cond st (some (dumpOptAspect asp)) none) = .ok (asp, st) := by
  cases st
  · rw [hunset rfl]
    rfl
  · obtain ⟨a, ha, hrt⟩ := hset rfl
    subst ha
    show ebind (parseAspectUniqueFilterModel loader (Doc.dict a.dump)) _ = _
    rw [hrt]
    rfl

theorem unique_dump_keysAllowed (m : UniqueModel) :
    keysAllowed m.dump ["affix", "aspect", "itemType", "minGreaterAffixCount", "minPower"] = true := by
  simp [UniqueModel.dump]

theorem unique_dump_affix (m : UniqueModel) :
    dlookup m.dump "affix" =
      cond m.affix_set (some (.list (m.affix.map fun a => Doc.dict a.dump))) none := by
  cases h : m.affix_set <;> simp [UniqueModel.dump, h]

theorem unique_dump_aspect (m : UniqueModel) :
    dlookup m.dump "aspect" = cond m.aspect_set (some (dumpOptAspect m.aspect)) none := by
  cases h : m.aspect_set <;> simp [UniqueModel.dump, h]

theorem unique_dump_itemType (m : UniqueModel) :
    dlookup m.dump "itemType" =
      cond m.itemType_set (some (.list (m.itemType.map Doc.str))) none := by
  cases h : m.itemType_set <;> simp [UniqueModel.dump, h]

theorem unique_dump_minGreaterAffixCount (m : UniqueModel) :
    dlookup m.dump "minGreaterAffixCount" =
      cond m.minGreaterAffixCount_set (some (.num m.minGreaterAffixCount)) none := by
  cases h : m.minGreaterAffixCount_set <;> simp [UniqueModel.dump, h]

theorem unique_dump_minPower (m : UniqueModel) :
    dlookup m.dump "minPower" = cond m.minPower_set (some (.num m.minPower)) none := by
  cases h : m.minPower_set <;> simp [UniqueModel.dump, h]

theorem parseUniqueModel_roundtrip (loader : Dataloader) (itemTypes : List String)
    {d : Doc} {m : UniqueModel} (h : parseUniqueModel loader itemTypes d = .ok m) :
    parseUniqueModel loader itemTypes (.dict m.dump) = .ok m := by
  cases d with
  | dict kvs =>
    obtain ⟨af, asp, it, mg, mp, hk, haf, hasp, hit, hmg, hmp, hm⟩ := parseUniqueModel_ok h
    subst hm
    have hafelem : ∀ a ∈ af.1, parseAffixFilterModel loader (.dict a.dump) = .ok a := by
      intro a ha
      rcases parseAffixList_ok haf with ⟨_, hpp⟩ | ⟨xs2, _, hmap, _⟩
      · rw [hpp] at ha
        cases ha
      · obtain ⟨x, _, hx⟩ := mapE_ok_mem hmap a ha
        exact parseAffixFilterModel_roundtrip loader hx
    have hafuns : af.2 = false → af.1 = [] := by
      intro hf
      rcases parseAffixList_ok haf with ⟨_, hpp⟩ | ⟨xs2, _, _, hst⟩
      · rw [hpp]
      · rw [hst] at hf
        exact Bool.noConfusion hf
    have haspset : asp.2 = true → ∃ a, asp.1 = some a ∧
        parseAspectUniqueFilterModel loader (.dict a.dump) = .ok a := by
      intro ht
      rcases parseAspectField_ok hasp with ⟨_, hpp⟩ | ⟨d2, a, _, hpa, hpp⟩
      · rw [hpp] at ht
        exact Bool.noConfusion ht
      · rw [hpp]
        exact ⟨a, rfl, parseAspectUniqueFilterModel_roundtrip loader hpa⟩
    have haspuns : asp.2 = false → asp.1 = none := by
      intro hf
      rcases parseAspectField_ok hasp with ⟨_, hpp⟩ | ⟨d2, a, _, _, hpp⟩
      · rw [hpp]
      · rw [hpp] at hf
        exact Bool.noConfusion hf
    obtain ⟨hituns, hitmem⟩ := parseItemTypeList_ok hit
    have hmgset : mg.2 = true → check_greater_than_zero mg.1 = .ok mg.1 := by
      intro ht
      rcases parseIntWith_ok hmg with ⟨_, hpp⟩ | ⟨v, _, hch, _⟩
      · rw [hpp] at ht
        exact Bool.noConfusion ht
      · exact check_gtz_stable hch
    have hmgif : cond mg.2 mg.1 0 = mg.1 := by
      cases hgg : mg.2
      · rcases parseIntWith_ok hmg with ⟨_, hpp⟩ | ⟨v, _, _, hst⟩
        · rw [hpp]
          rfl
        · rw [hst] at hgg
          exact Bool.noConfusion hgg
      · rfl
    have hmpset : mp.2 = true → check_greater_than_zero mp.1 = .ok mp.1 := by
      intro ht
      rcases parseIntWith_ok hmp with ⟨_, hpp⟩ | ⟨v, _, hch, _⟩
      · rw [hpp] at ht
        exact Bool.noConfusion ht
      · exact check_gtz_stable hch
    have hmpif : cond mp.2 mp.1 0 = mp.1 := by
      cases hgg : mp.2
      · rcases parseIntWith_ok hmp with ⟨_, hpp⟩ | ⟨v, _, _, hst⟩
        · rw [hpp]
          rfl
        · rw [hst] at hgg
          exact Bool.noConfusion hgg
      · rfl
    have hka : ¬(keysAllowed (UniqueModel.dump
        { affix := af.1, aspect := asp.1, itemType := it.1,
          minGreaterAffixCount := mg.1, minPower := mp.1,
          affix_set := af.2, aspect_set := asp.2, itemType_set := it.2,
          minGreaterAffixCount_set := mg.2, minPower_set := mp.2 })
        ["affix", "aspect", "itemType", "minGreaterAffixCount", "minPower"] = false) := by
      rw [unique_dump_keysAllowed]
      exact fun hc => Bool.noConfusion hc
    unfold parseUniqueModel
    dsimp only
    rw [if_neg hka, unique_dump_affix, parseAffixList_dump hafelem hafuns]
    simp only [ebind_ok_left]
    rw [unique_dump_aspect, parseAspectField_dump haspset haspuns]
    simp only [ebind_ok_left]
    rw [unique_dump_itemType, parseItemTypeList_dump hitmem hituns]
    simp only [ebind_ok_left]
    rw [unique_dump_minGreaterAffixCount, parseIntWith_dump hmgset]
    simp only [ebind_ok_left]
    rw [unique_dump_minPower, parseIntWith_dump hmpset]
    simp only [ebind_ok_left]
    rw [hmgif, hmpif]
  | null => exact Except.noConfusion h
  | bool b => exact Except.noConfusion h
  | num n => exact Except.noConfusion h
  | str s => exact Except.noConfusion h
  | list xs => exact Except.noConfusion h

/-! ## Round trip for ProfileModel -/

theorem parseDynamicItemFilterModel_ok {loader : Dataloader} {itemTypes : List String}
    {d : Doc} {l : List (String × ItemFilterModel)}
    (h : parseDynamicItemFilterModel loader itemTypes d = .ok l) :
    ∀ kv ∈ l, ∃ x, parseItemFilterModel loader itemTypes x = .ok kv.2 := by
  match d with
  | .dict kvs =>
    intro kv hkv
    obtain ⟨src, _, hsrc⟩ := mapE_ok_mem h kv hkv
    obtain ⟨m2, hm2, he⟩ := ebind_ok hsrc
    cases he
    exact ⟨src.2, hm2⟩
  | .null | .bool _ | .num _ | .str _ | .list _ => exact Except.noConfusion h

theorem parseDynamicItemFilterModel_roundtrip {loader : Dataloader} {itemTypes : List String}
    {l : List (String × ItemFilterModel)}
    (helem : ∀ kv ∈ l, parseItemFilterModel loader itemTypes (.dict kv.2.dump) = .ok kv.2) :
    parseDynamicItemFilterModel loader itemTypes
      (.dict (l.map fun kv => (kv.1, .dict kv.2.dump))) = .ok l := by
  show mapE _ (l.map fun kv => (kv.1, Doc.dict kv.2.dump)) = .ok l
  refine mapE_of_forall ?_
  intro kv hkv
  show ebind (parseItemFilterModel loader itemTypes (Doc.dict kv.2.dump)) _ = _
  rw [helem kv hkv]
  rfl

theorem parseAffixesField_ok {loader : Dataloader} {itemTypes : List String} {o : Option Doc}
    {p : List (List (String × ItemFilterModel)) × Bool}
    (h : parseAffixesField loader itemTypes o = .ok p) :
    (p.2 = false → p.1 = []) ∧
      ∀ dm ∈ p.1, ∃ x, parseDynamicItemFilterModel loader itemTypes x = .ok dm := by
  match o with
  | none =>
    cases h
    exact ⟨fun _ => rfl, fun dm hdm => absurd hdm (List.not_mem_nil dm)⟩
  | some (.list xs) =>
    obtain ⟨l, hl, h⟩ := ebind_ok h
    cases h
    refine ⟨fun hc => Bool.noConfusion hc, ?_⟩
    intro dm hdm
    obtain ⟨x, _, hx⟩ := mapE_ok_mem hl dm hdm
    exact ⟨x, hx⟩
  | some .null | some (.bool _) | some (.num _) | some (.str _) | some (.dict _) =>
    exact Except.noConfusion h

theorem parseAffixesField_dump {loader : Dataloader} {itemTypes : List String}
    {l : List (List (String × ItemFilterModel))} {st : Bool}
    (helem : ∀ dm ∈ l, parseDynamicItemFilterModel loader itemTypes
      (.dict (dm.map fun kv => (kv.1, .dict kv.2.dump))) = .ok dm)
    (hunset : st = false → l = []) :
    parseAffixesField loader itemTypes
      (cond st (some (.list (l.map fun dm =>
        .dict (dm.map fun kv => (kv.1, .dict kv.2.dump))))) none) = .ok (l, st) := by
  cases st
  · rw [hunset rfl]
    rfl
  · show ebind (mapE (parseDynamicItemFilterModel loader itemTypes)
      (l.map fun dm => Doc.dict (dm.map fun kv => (kv.1, Doc.dict kv.2.dump)))) _ = _
    rw [mapE_of_forall helem]
    rfl

theorem parseSigilsField_ok {loader : Dataloader} {o : Option Doc}
    {p : Option SigilFilterModel × Bool} (h : parseSigilsField loader o = .ok p) :
    (p.2 = false → p.1 = none) ∧
      (∀ s, p.1 = some s → ∃ x, parseSigilFilterModel loader x = .ok s) := by
  match o with
  | none =>
    cases h
    exact ⟨fun _ => rfl, fun s hs => Option.noConfusion hs⟩
  | some .null =>
    cases h
    exact ⟨fun hc => Bool.noConfusion hc, fun s hs => Option.noConfusion hs⟩
  | some (.bool b) =>
    rw [show parseSigilsField loader (some (Doc.bool b)) =
      ebind (parseSigilFilterModel loader (.bool b)) (fun s => .ok (some s, true)) from rfl] at h
    obtain ⟨s, hs, h⟩ := ebind_ok h
    cases h
    exact ⟨fun hc => Bool.noConfusion hc, fun s2 hs2 => ⟨.bool b, by cases hs2; exact hs⟩⟩
  | some (.num n) =>
    rw [show parseSigilsField loader (some (Doc.num n)) =
      ebind (parseSigilFilterModel loader (.num n)) (fun s => .ok (some s, true)) from rfl] at h
    obtain ⟨s, hs, h⟩ := ebind_ok h
    cases h
    exact ⟨fun hc => Bool.noConfusion hc, fun s2 hs2 => ⟨.num n, by cases hs2; exact hs⟩⟩
  | some (.str s0) =>
    rw [show parseSigilsField loader (some (Doc.str s0)) =
      ebind (parseSigilFilterModel loader (.str s0)) (fun s => .ok (some s, true)) from rfl] at h
    obtain ⟨s, hs, h⟩ := ebind_ok h
    cases h
    exact ⟨fun hc => Bool.noConfusion hc, fun s2 hs2 => ⟨.str s0, by cases hs2; exact hs⟩⟩
  | some (.list xs) =>
    rw [show parseSigilsField loader (some (Doc.list xs)) =
      ebind (parseSigilFilterModel loader (.list xs)) (fun s => .ok (some s, true)) from rfl] at h
    obtain ⟨s, hs, h⟩ := ebind_ok h
    cases h
    exact ⟨fun hc => Bool.noConfusion hc, fun s2 hs2 => ⟨.list xs, by cases hs2; exact hs⟩⟩
  | some (.dict kvs) =>
    rw [show parseSigilsField loader (some (Doc.dict kvs)) =
      ebind (parseSigilFilterModel loader (.dict kvs)) (fun s => .ok (some s, true)) from rfl] at h
    obtain ⟨s, hs, h⟩ := ebind_ok h
    cases h
    exact ⟨fun hc => Bool.noConfusion hc, fun s2 hs2 => ⟨.dict kvs, by cases hs2; exact hs⟩⟩

theorem parseSigilsField_dump {loader : Dataloader} {sg : Option SigilFilterModel} {st : Bool}
    (hset : ∀ s, sg = some s → parseSigilFilterModel loader (.dict s.dump) = .ok s)
    (hunset : st = false → sg = none) :
    parseSigilsField loader (cond st (some (dumpOptSigils sg)) none) = .ok (sg, st) := by
  cases st
  · rw [hunset rfl]
    rfl
  · match sg, hset with
    | none, _ => rfl
    | some s, hset =>
      show ebind (parseSigilFilterModel loader (Doc.dict s.dump)) _ = _
      rw [hset s rfl]
      rfl

theorem parseUniquesField_ok {loader : Dataloader} {itemTypes : List String} {o : Option Doc}
    {p : List UniqueModel × Bool} (h : parseUniquesField loader itemTypes o = .ok p) :
    (p.2 = false → p.1 = []) ∧
      ∀ u ∈ p.1, ∃ x, parseUniqueModel loader itemTypes x = .ok u := by
  match o with
  | none =>
    cases h
    exact ⟨fun _ => rfl, fun u hu => absurd hu (List.not_mem_nil u)⟩
  | some (.list xs) =>
    obtain ⟨l, hl, h⟩ := ebind_ok h
    cases h
    refine ⟨fun hc => Bool.noConfusion hc, ?_⟩
    intro u hu
    obtain ⟨x, _, hx⟩ := mapE_ok_mem hl u hu
    exact ⟨x, hx⟩
  | some .null | some (.bool _) | some (.num _) | some (.str _) | some (.dict _) =>
    exact Except.noConfusion h

theorem parseUniquesField_dump {loader : Dataloader} {itemTypes : List String}
    {l : List UniqueModel} {st : Bool}
    (helem : ∀ u ∈ l, parseUniqueModel loader itemTypes (.dict u.dump) = .ok u)
    (hunset : st = false → l = []) :
    parseUniquesField loader itemTypes
      (cond st (some (.list (l.map fun u => .dict u.dump))) none) = .ok (l, st) := by
  cases st
  · rw [hunset rfl]
    rfl
  · show ebind (mapE (parseUniqueModel loader itemTypes) (l.map fun u => Doc.dict u.dump)) _ = _
    rw [mapE_of_forall helem]
    rfl

theorem parseProfileModel_ok {loader : Dataloader} {itemTypes : List String}
    {kvs : List (String × Doc)} {p : ProfileModel}
    (h : parseProfileModel loader itemTypes (.dict kvs) = .ok p) :
    ∃ af sg un,
      keysAllowed kvs ["name", "Affixes", "Sigils", "Uniques"] = true ∧
      parseNameField Except.ok (dlookup kvs "name") = .ok p.name ∧
      parseAffixesField loader itemTypes (dlookup kvs "Affixes") = .ok af ∧
      parseSigilsField loader (dlookup kvs "Sigils") = .ok sg ∧
      parseUniquesField loader itemTypes (dlookup kvs "Uniques") = .ok un ∧
      p = { name := p.name, Affixes := af.1, Sigils := sg.1, Uniques := un.1,
            Affixes_set := af.2, Sigils_set := sg.2, Uniques_set := un.2 } := by
  unfold parseProfileModel at h
  dsimp only at h
  by_cases hk : keysAllowed kvs ["name", "Affixes", "Sigils", "Uniques"] = false
  · rw [if_pos hk] at h
    exact Except.noConfusion h
  · rw [if_neg hk] at h
    obtain ⟨nm, hnm, h⟩ := ebind_ok h
    obtain ⟨af, haf, h⟩ := ebind_ok h
    obtain ⟨sg, hsg, h⟩ := ebind_ok h
    obtain ⟨un, hun, h⟩ := ebind_ok h
    cases h
    exact ⟨af, sg, un, Bool.not_eq_false _ ▸ hk, hnm, haf, hsg, hun, rfl⟩

theorem profile_dump_name (p : ProfileModel) :
    dlookup (match ProfileModel.dump p with
      | .dict kvs => kvs
      | _ => []) "name" = some (.str p.name) := by
  simp [ProfileModel.dump]

/-- C2: a profile document that validates re-serialises (with exclude_unset)
to a document that validates to the very same model: the rule tree round
trips. -/
theorem c2_profile_round_trip (loader : Dataloader) (itemTypes : List String)
    (d : Doc) (p : ProfileModel)
    (h : parseProfileModel loader itemTypes d = .ok p) :
    parseProfileModel loader itemTypes (ProfileModel.dump p) = .ok p := by
  cases d with
  | dict kvs =>
    obtain ⟨af, sg, un, hk, hnm, haf, hsg, hun, hp⟩ := parseProfileModel_ok h
    obtain ⟨hafuns, hafsrc⟩ := parseAffixesField_ok haf
    obtain ⟨hsguns, hsgsrc⟩ := parseSigilsField_ok hsg
    obtain ⟨hununs, hunsrc⟩ := parseUniquesField_ok hun
    have hafelem : ∀ dm ∈ af.1, parseDynamicItemFilterModel loader itemTypes
        (.dict (dm.map fun kv => (kv.1, .dict kv.2.dump))) = .ok dm := by
      intro dm hdm
      obtain ⟨x, hx⟩ := hafsrc dm hdm
      refine parseDynamicItemFilterModel_roundtrip ?_
      intro kv hkv
      obtain ⟨x2, hx2⟩ := parseDynamicItemFilterModel_ok hx kv hkv
      exact parseItemFilterModel_roundtrip loader itemTypes hx2
    have hsgelem : ∀ s, sg.1 = some s → parseSigilFilterModel loader (.dict s.dump) = .ok s := by
      intro s hs
      obtain ⟨x, hx⟩ := hsgsrc s hs
      exact parseSigilFilterModel_roundtrip loader hx
    have hunelem : ∀ u ∈ un.1, parseUniqueModel loader itemTypes (.dict u.dump) = .ok u := by
      intro u hu
      obtain ⟨x, hx⟩ := hunsrc u hu
      exact parseUniqueModel_roundtrip loader itemTypes hx
    rw [hp]
    show parseProfileModel loader itemTypes (.dict (("name", .str p.name) ::
      (optField "Affixes" af.2 (.list (af.1.map fun dm =>
          .dict (dm.map fun kv => (kv.1, .dict kv.2.dump)))) ++
        optField "Sigils" sg.2 (dumpOptSigils sg.1) ++
        optField "Uniques" un.2 (.list (un.1.map fun u => .dict u.dump))))) = _
    unfold parseProfileModel
    dsimp only
    rw [if_neg (by simp)]
    rw [show dlookup (("name", Doc.str p.name) ::
      (optField "Affixes" af.2 (.list (af.1.map fun dm =>
          Doc.dict (dm.map fun kv => (kv.1, Doc.dict kv.2.dump)))) ++
        optField "Sigils" sg.2 (dumpOptSigils sg.1) ++
        optField "Uniques" un.2 (.list (un.1.map fun u => Doc.dict u.dump)))) "name" =
      some (.str p.name) by simp]
    show ebind (Except.ok p.name) _ = _
    simp only [ebind_ok_left]
    rw [show dlookup (("name", Doc.str p.name) ::
      (optField "Affixes" af.2 (.list (af.1.map fun dm =>
          Doc.dict (dm.map fun kv => (kv.1, Doc.dict kv.2.dump)))) ++
        optField "Sigils" sg.2 (dumpOptSigils sg.1) ++
        optField "Uniques" un.2 (.list (un.1.map fun u => Doc.dict u.dump)))) "Affixes" =
      cond af.2 (some (.list (af.1.map fun dm =>
        Doc.dict (dm.map fun kv => (kv.1, Doc.dict kv.2.dump))))) none by
        cases af.2 <;> simp]
    rw [parseAffixesField_dump hafelem hafuns]
    simp only [ebind_ok_left]
    rw [show dlookup (("name", Doc.str p.name) ::
      (optField "Affixes" af.2 (.list (af.1.map fun dm =>
          Doc.dict (dm.map fun kv => (kv.1, Doc.dict kv.2.dump)))) ++
        optField "Sigils" sg.2 (dumpOptSigils sg.1) ++
        optField "Uniques" un.2 (.list (un.1.map fun u => Doc.dict u.dump)))) "Sigils" =
      cond sg.2 (some (dumpOptSigils sg.1)) none by
        cases sg.2 <;> simp]
    rw [parseSigilsField_dump hsgelem hsguns]
    simp only [ebind_ok_left]
    rw [show dlookup (("name", Doc.str p.name) ::
      (optField "Affixes" af.2 (.list (af.1.map fun dm =>
          Doc.dict (dm.map fun kv => (kv.1, Doc.dict kv.2.dump)))) ++
        optField "Sigils" sg.2 (dumpOptSigils sg.1) ++
        optField "Uniques" un.2 (.list (un.1.map fun u => Doc.dict u.dump)))) "Uniques" =
      cond un.2 (some (.list (un.1.map fun u => Doc.dict u.dump))) none by
        cases un.2 <;> simp]
    rw [parseUniquesField_dump hunelem hununs]
    simp only [ebind_ok_left]
  | null => exact Except.noConfusion h
  | bool b => exact Except.noConfusion h
  | num n => exact Except.noConfusion h
  | str s => exact Except.noConfusion h
  | list xs => exact Except.noConfusion h

/-- A concrete profile document exercising pools with inferred and explicit
bounds, a sigil policy and a unique rule. -/
def profile1doc : Doc :=
  .dict [("name", .str "P1"),
    ("Affixes", .list [.dict [("rule1", .dict [
      ("affixPool", .list [.dict [("count", .list [.str "a1", .str "a2"])]]),
      ("minPower", .num 100)])]]),
    ("Sigils", .dict [("blacklist", .list [.str "d1"]), ("minTier", .num 20)]),
    ("Uniques", .list [.dict [("aspect", .str "u1"), ("minGreaterAffixCount", .num 4)]])]

/-- The item rule parsed inside profile1doc (its pool is pool2). -/
def profItem : ItemFilterModel :=
  ⟨[pool2], [], [], 0, 100, true, false, false, false, true⟩

/-- The sigil policy parsed inside profile1doc. -/
def profSigils : SigilFilterModel :=
  ⟨[⟨"d1", [], false⟩], sys_maxsize, 20, .blacklist, [], true, false, true, false, false⟩

/-- The unique rule parsed inside profile1doc. -/
def profUnique : UniqueModel :=
  ⟨[], some ⟨"u1", none, .larger, false, false⟩, [], 4, 0, false, true, false, true, false⟩

/-- The model parsed from profile1doc. -/
def profile1 : ProfileModel :=
  ⟨"P1", [[("rule1", profItem)]], some profSigils, [profUnique], true, true, true⟩

theorem c2_profile_round_trip_witness :
    parseProfileModel loader0 ["Helm"] profile1doc = .ok profile1 ∧
      parseProfileModel loader0 ["Helm"] (ProfileModel.dump profile1) = .ok profile1 :=
  ⟨rfl, c2_profile_round_trip loader0 ["Helm"] profile1doc profile1 rfl⟩

end D4LF
